import Mathlib

/-!
Verification development for the Atomic-Caldera conversion pipeline
(src/legacy/Atomic-Caldera.py).

The decisive fact about the committed file comes first: it is not a
legal Python 3 program.  The file is tab-indented throughout except for
line 270, which is indented with 64 space characters between the 8-tab
line 269 and the 7-tab line 271.  CPython tokenizes a file completely
before executing any statement of it, and its tokenizer demands that
indentation comparisons agree under tab size 8 and under tab size 1;
for line 270 they disagree, so every invocation of the script — with
any arguments and any input tree — aborts at tokenization with
TabError ("inconsistent use of tabs and spaces in indentation").
main() is never compiled, no file is ever read, validated or written,
and no test is ever processed.  The srcLine definitions below embed the
indentation of the relevant source lines byte for byte, together with
the tokenizer comparison rule, and the claim theorems rest on them.

The development therefore has two layers:
  - statement-level fragments embedded directly from the source text
    (the preflight check checkCSVPath of lines 61-77, the resolver
    getMITREPhase of lines 50-59, the command transform of lines
    234-239, the dispatch guards of lines 259 and 262, the
    deduplication key of line 282, the uuid retry loop of lines
    225-230, the field accesses of lines 222 and 288), plus the source
    indentation facts and the tokenizer rule — these describe the
    committed file;
  - an intended-reading model of the whole of main() (the reading in
    which line 270 carries the indentation of the surrounding
    powershell branch): Python string primitives (lower, strip,
    replace, repr, utf-8 encode + unicode_escape decode), the
    per-test / per-file / per-directory control flow as Except-valued
    state transformers over an explicit pipeline state, uuid4 as an
    abstract supply gen : Nat -> Nat.  This layer describes the design
    the source text evidently expresses — the one the committed file
    fails to realise — and no claim theorem asserts it as behaviour of
    the committed file.

Known deliberate modelling notes (each flagged at its definition):
  - file-system paths are abstracted: a source file carries its
    extension and its parse result, a ledger file is its row list;
  - CSV persistence is modelled as the row list written verbatim
    (DictWriter stringifies uuid objects, modelled by the loadRow map);
  - the Cmd-Wrapper template substitution (re.sub with a literal
    pattern) is modelled as literal text replacement.
-/

/-! ## Python string primitives -/

/-- Python str.lower restricted to ASCII letters (the executor names and
file extensions the script lowers are ASCII). -/
def pyLowerChar (c : Char) : Char :=
  if 'A' ≤ c ∧ c ≤ 'Z' then Char.ofNat (c.toNat + 32) else c

/-- Python str.lower on a whole string. -/
def pyLower (s : String) : String := String.mk (s.toList.map pyLowerChar)

/-- Python whitespace test used by str.strip(). -/
def isPySpace (c : Char) : Bool :=
  c == ' ' || c == '\t' || c == '\n' || c == '\r' ||
  c == Char.ofNat 11 || c == Char.ofNat 12

/-- Python str.strip() on a character list: drop whitespace from both ends. -/
def pyStripList (l : List Char) : List Char :=
  ((l.dropWhile isPySpace).reverse.dropWhile isPySpace).reverse

/-- Python str.strip() on strings. -/
def pyStrip (s : String) : String := String.mk (pyStripList s.toList)

/-- Python str.strip(q) for a single character q: drop every leading and
trailing occurrence of q. -/
def stripCharList (q : Char) (l : List Char) : List Char :=
  ((l.dropWhile (fun c => c == q)).reverse.dropWhile (fun c => c == q)).reverse

/-- Python str.replace(pat, rep): leftmost, non-overlapping, left to
right.  Structural recursion on a fuel that dominates the number of
steps (each step consumes at least one character); with the fuel set to
the length of the list by the replaceList wrapper the fuel never runs
out.  The empty pattern never occurs in the script, the guard keeps
the recursion sound. -/
def replaceListAux (pat rep : List Char) : Nat → List Char → List Char
  | _, [] => []
  | 0, l => l
  | fuel + 1, c :: rest =>
    if pat.isPrefixOf (c :: rest) && !pat.isEmpty then
      rep ++ replaceListAux pat rep fuel ((c :: rest).drop pat.length)
    else
      c :: replaceListAux pat rep fuel rest

def replaceList (pat rep l : List Char) : List Char :=
  replaceListAux pat rep l.length l

/-- Python str.replace on strings. -/
def replaceStr (pat rep s : String) : String :=
  String.mk (replaceList pat.toList rep.toList s.toList)

/-- Boolean substring occurrence test (matches the recursion pattern of
replaceList). -/
def listHasSub (pat : List Char) : List Char → Bool
  | [] => pat.isPrefixOf []
  | c :: rest => pat.isPrefixOf (c :: rest) || listHasSub pat rest

/-- Line 234 / 249: re.sub(r'x07', r'a', s) with a literal pattern, which
replaces every occurrence of the three-character text "x07" by "a". -/
def subX07 (s : String) : String := replaceStr "x07" "a" s

/-! ## Python repr and the unicode_escape round trip -/

/-- Lower-case hexadecimal digit. -/
def hexDigitChar (n : Nat) : Char :=
  if n < 10 then Char.ofNat (48 + n) else Char.ofNat (87 + n)

/-- One character of Python repr output, given the chosen quote
character q: backslash and the quote are escaped, \n \r \t use their
short escapes, other non-printable characters below 0xa1 (and soft
hyphen) use a \xhh escape, everything else is kept. -/
def reprEscChar (q c : Char) : List Char :=
  if c == '\\' then ['\\', '\\']
  else if c == q then ['\\', q]
  else if c == '\n' then ['\\', 'n']
  else if c == '\r' then ['\\', 'r']
  else if c == '\t' then ['\\', 't']
  else if c.toNat < 32 || c.toNat == 127 || (128 ≤ c.toNat && c.toNat ≤ 160)
       || c.toNat == 173 then
    ['\\', 'x', hexDigitChar (c.toNat / 16), hexDigitChar (c.toNat % 16)]
  else [c]

/-- Python repr quote choice: a single quote unless the string contains
a single quote and no double quote. -/
def reprQuote (l : List Char) : Char :=
  if l.contains '\'' && !(l.contains '"') then '"' else '\''

/-- Python repr of a string, as a character list. -/
def pyReprList (l : List Char) : List Char :=
  let q := reprQuote l
  q :: ((l.map (reprEscChar q)).flatten ++ [q])

/-- Python repr of a string. -/
def pyRepr (s : String) : String := String.mk (pyReprList s.toList)

/-- UTF-8 encoding of one character, as byte values. -/
def utf8Char (c : Char) : List Nat :=
  let n := c.toNat
  if n < 128 then [n]
  else if n < 2048 then [192 + n / 64, 128 + n % 64]
  else if n < 65536 then
    [224 + n / 4096, 128 + (n / 64) % 64, 128 + n % 64]
  else
    [240 + n / 262144, 128 + (n / 4096) % 64, 128 + (n / 64) % 64, 128 + n % 64]

/-- UTF-8 encoding of a character list (str.encode of line 235). -/
def utf8Bytes (l : List Char) : List Nat := (l.map utf8Char).flatten

/-- Hexadecimal value of an ASCII digit byte. -/
def hexVal (b : Nat) : Option Nat :=
  if 48 ≤ b && b ≤ 57 then some (b - 48)
  else if 97 ≤ b && b ≤ 102 then some (b - 87)
  else if 65 ≤ b && b ≤ 70 then some (b - 55)
  else none

/-- bytes.decode("unicode_escape") of line 235: every byte outside an
escape sequence is decoded as its latin-1 code point (this is what
mangles UTF-8 encoded non-ASCII text), the standard simple escapes and
\xhh are decoded, and an unknown escape keeps its backslash, as CPython
does.  Octal escapes and escapes that CPython rejects cannot occur in
repr output after the x07 substitution and are kept literally. -/
def uDecodeStep (b : Nat) (rest : List Nat) : List Char × List Nat :=
  if b == 92 then
    match rest with
    | [] => (['\\'], [])
    | e :: rest2 =>
      if e == 110 then (['\n'], rest2)
      else if e == 116 then (['\t'], rest2)
      else if e == 114 then (['\r'], rest2)
      else if e == 97 then ([Char.ofNat 7], rest2)
      else if e == 98 then ([Char.ofNat 8], rest2)
      else if e == 102 then ([Char.ofNat 12], rest2)
      else if e == 118 then ([Char.ofNat 11], rest2)
      else if e == 39 then (['\''], rest2)
      else if e == 34 then (['"'], rest2)
      else if e == 92 then (['\\'], rest2)
      else if e == 120 then
        match rest2 with
        | h1 :: h2 :: rest3 =>
          match hexVal h1, hexVal h2 with
          | some a, some b2 => ([Char.ofNat (16 * a + b2)], rest3)
          | _, _ => (['\\', 'x'], h1 :: h2 :: rest3)
        | _ => (['\\', 'x'], rest2)
      else (['\\', Char.ofNat e], rest2)
  else ([Char.ofNat b], rest)

/-- The decode loop: one step per leading byte, fuelled structurally
(every step consumes at least the first byte, so fuel equal to the
byte count never runs out). -/
def uDecodeAux : Nat → List Nat → List Char
  | _, [] => []
  | 0, bs => bs.map Char.ofNat
  | fuel + 1, b :: rest =>
    (uDecodeStep b rest).1 ++ uDecodeAux fuel (uDecodeStep b rest).2

def uDecode (bs : List Nat) : List Char := uDecodeAux bs.length bs

/-- Lines 234-235: repr, repair of the "x07" text, UTF-8 encode, then
unicode_escape decode. -/
def reprRoundTrip (s : String) : String :=
  String.mk (uDecode (utf8Bytes (subX07 (pyRepr s)).toList))

/-- Lines 236-239: when the first character is a quote, strip that quote
character from both ends (Python strip removes every leading and
trailing occurrence).  repr output is never empty, so the empty case is
unreachable in the pipeline. -/
def stripOuterQuotes (s : String) : String :=
  match s.toList with
  | [] => s
  | c :: _ =>
    if c == '\'' then String.mk (stripCharList '\'' s.toList)
    else if c == '"' then String.mk (stripCharList '"' s.toList)
    else s

/-- The full command extraction transform of lines 234-239. -/
def fixCommand (s : String) : String := stripOuterQuotes (reprRoundTrip s)

/-- Line 249: argument default values only get the repr and the x07
repair, with no decode and no quote stripping. -/
def argValueTransform (v : String) : String := subX07 (pyRepr v)

/-! ## Data model -/

/-- One row of the test ledger CSV (atomic-caldera.csv).  Rows loaded
from disk by csv.DictReader hold the uuid as a string; rows appended at
line 333 hold the live uuid object.  The flag uuidIsStr records which,
because the collision check of line 229 compares the column against
str(attackUUID) and a uuid object never equals a string in Python.
The uuid value itself is abstracted to a Nat drawn from the supply. -/
structure LedgerRow where
  uuidIsStr : Bool
  attackUUID : Nat
  attackID : String
  origCommand : String
  command : String
deriving Repr, DecidableEq

/-- One row of the variable ledger CSV (atomic-variables.csv), appended
at lines 253 / 339.  The CSV columns are attackUUID, attackID, executor,
variable, value. -/
structure VarRow where
  attackUUID : Nat
  attackID : String
  executor : String
  varName : String
  varValue : String
deriving Repr, DecidableEq

/-- One input argument of an atomic test: its name and the default
value (modelled as the string the YAML scalar denotes). -/
structure InputArg where
  argName : String
  argDefault : String
deriving Repr, DecidableEq

/-- The executor dictionary of an atomic test: its name and the
command, which may be absent (line 224 checks for the key). -/
structure ExecutorDesc where
  name : String
  command : Option String
deriving Repr, DecidableEq

/-- One atomic test.  The dictionary accesses atomic["name"] (line 220)
and atomic["description"] (line 222) are unguarded in the source and
raise KeyError when the key is missing, so both fields are optional
here and the pipeline fails on none. -/
structure AtomicTest where
  name : Option String
  description : Option String
  executor : ExecutorDesc
  input_arguments : Option (List InputArg)
deriving Repr, DecidableEq

/-- The parsed content of one YAML definition file: the three top-level
keys the script reads, each guarded by a key-presence check
(lines 199, 204, 216). -/
structure YamlData where
  display_name : Option String
  attack_technique : Option String
  atomic_tests : Option (List AtomicTest)
deriving Repr, DecidableEq

/-- One file met during the walk: its extension as os.path.splitext
returns it, and the result of yaml.load — none models a parse failure,
which raises SystemExit at line 196. -/
structure SrcFile where
  ext : String
  parsed : Option YamlData
deriving Repr, DecidableEq

/-- One directory yielded by os.walk: the files it contains.  os.walk
yields the input root first and then every nested subdirectory. -/
structure WalkEntry where
  files : List SrcFile
deriving Repr, DecidableEq

/-- One record of the external MITRE CTI knowledge base, as far as
getMITREPhase looks at it: its STIX type, its external reference ids,
and its kill chain phase names. -/
structure AttackPattern where
  typ : String
  external_ids : List String
  kill_chain_phases : List String
deriving Repr, DecidableEq

/-- The abort conditions the embedded pipeline can raise:
unparseableFile is the SystemExit of line 196, keyError the unguarded
dictionary accesses of lines 220/222, nameError the use of an unset
displayName variable at line 288, indexError the access
kill_chain_phases[0] on an empty list at line 57. -/
inductive PErr where
  | unparseableFile
  | keyError
  | nameError
  | indexError
deriving Repr, DecidableEq

/-- One ability YAML file written at lines 321-330: its tactic
directory, the uuid filename stem and the dumped record. -/
structure NewYaml where
  id : Nat
  name : String
  description : String
  tactic : String
  attack_id : String
  techniqueName : String
  executorKey : String
  command : String
deriving Repr, DecidableEq

structure AbilityFile where
  dir : String
  fileUuid : Nat
  record : NewYaml
deriving Repr, DecidableEq

/-- The in-memory state of main(): the two ledgers, the ability files
written so far, the sequence of full-content CSV rewrites performed so
far (one snapshot per rewrite, lines 344-360), the last value assigned
to the displayName variable (none before any assignment), the next
index of the uuid supply, and the trace of supply indices actually
drawn (for the uniqueness statements). -/
structure PState where
  csvFile : List LedgerRow
  varCsvFile : List VarRow
  written : List AbilityFile
  csvWrites : List (List LedgerRow)
  varWrites : List (List VarRow)
  displayName : Option String
  uuidCtr : Nat
  genIdxs : List Nat
deriving Repr, DecidableEq

/-! ## Pipeline (the intended reading)

Everything from normalizeExec through runMain formalises the evident
intended reading of main(): the reading in which line 270 belongs to
the body of the powershell branch, i.e. the program obtained by giving
line 270 the eight-tab indentation of the block around it.  The
committed file itself has no run-time reading at all — Python 3
rejects it at tokenization (see the srcLine definitions and the
tokenization theorems of the claim sections).  This model is evidence
about the design the source text expresses; the claim analyses use it
to separate design properties from behaviour of the committed file,
and no claim theorem asserts it as behaviour of the committed file.
The fragments getMITREPhase, descFormat, pickIdx and updateDisplay
render lines that are themselves well formed and are quoted by the
claim theorems directly. -/

/-- Lines 50-59: query the knowledge base for attack-pattern records
whose external references contain attackID; return the first phase of
the first match, none when there is no match, and an index error when
the first match has no kill chain phases. -/
def attackPatternMatches (attackID : String) (r : AttackPattern) : Bool :=
  r.typ == "attack-pattern" && r.external_ids.contains attackID

def getMITREPhase (fs : List AttackPattern) (attackID : String) :
    Except PErr (Option String) :=
  match fs.filter (attackPatternMatches attackID) with
  | [] => .ok none
  | r :: _ =>
    match r.kill_chain_phases with
    | [] => .error .indexError
    | p :: _ => .ok (some p)

/-- The executor dispatch of lines 258-273 as a pure function of the
wrapper template, the executor name and the extracted command; skip is
the final continue of line 273.  In the committed file this construct
contains the illegally indented line 270, so as source text it has no
defined semantics — tokenization fails before the construct is even
parsed.  The definition renders the evident intended reading, with
line 270 as the second statement of the powershell branch: it stands
between the first branch statement (line 269) and the branch-closing
assignment (line 271), and only that placement gives the file a
consistent indentation.  The Cmd-Wrapper substitution (re.sub with a
literal pattern) is modelled as literal replacement of the placeholder
text; the replacement-escape processing of re.sub is not exercised. -/
inductive ExecResult where
  | keep (key cmd : String)
  | skip
deriving Repr, DecidableEq

def normalizeExec (cmdWrap executor command : String) : ExecResult :=
  if pyLower executor == "sh" || pyLower executor == "bash" then
    .keep "bash" (replaceStr "\\n" "\n" command)
  else if pyLower executor == "command_prompt" || pyLower executor == "powershell" then
    if pyLower executor == "command_prompt" then
      .keep "psh" (replaceStr "#{command}" command cmdWrap)
    else
      .keep "psh" (replaceStr "\n" ";\n" (replaceStr "\\n" "\n" command))
  else .skip

/-- Line 289: strip the description, turn newlines into spaces,
collapse double spaces once, append the provenance tag. -/
def descFormat (d : String) : String :=
  replaceStr "  " " " (replaceStr "\n" " " (pyStrip d)) ++ " (Atomic Red Team)"

/-- The uuid retry loop of lines 225-230: draw supply values starting
at index k until one differs from every string-typed uuid in the
ledger column (rows appended during this run hold uuid objects, which
the Python equality of line 229 never matches).  The fuel is set to
rows.length + 1 by the caller; for an injective supply it never runs
out (proved below). -/
def pickIdx (gen : Nat → Nat) (rows : List LedgerRow) : Nat → Nat → Nat
  | 0, k => k
  | fuel + 1, k =>
    if rows.any (fun r => r.uuidIsStr && r.attackUUID == gen k) then
      pickIdx gen rows fuel (k + 1)
    else k

/-- Lines 218-342: process one atomic test. -/
def processTest (gen : Nat → Nat) (cmdWrap tactic attackID : String)
    (st : PState) (t : AtomicTest) : Except PErr PState :=
  match t.name with
  | none => .error .keyError
  | some attackName =>
    match t.description with
    | none => .error .keyError
    | some testDescription =>
      match t.executor.command with
      | none =>
        -- lines 254-256: command and executor are set to the empty
        -- string; the empty executor matches no family at lines
        -- 259-273, so the test is skipped with the state unchanged.
        .ok st
      | some rawCmd =>
        let j := pickIdx gen st.csvFile (st.csvFile.length + 1) st.uuidCtr
        let attackUUID := gen j
        let st1 := { st with uuidCtr := j + 1, genIdxs := st.genIdxs ++ [j] }
        let executor := t.executor.name
        let command := fixCommand rawCmd
        let varList : List VarRow :=
          match t.input_arguments with
          | none => []
          | some args => args.map (fun a =>
              { attackUUID := attackUUID, attackID := attackID,
                executor := executor, varName := a.argName,
                varValue := argValueTransform a.argDefault })
        let origCommand := command
        match normalizeExec cmdWrap executor command with
        | .skip => .ok st1
        | .keep key ncmd =>
          if st1.csvFile.any
              (fun l => l.attackID == attackID && l.origCommand == origCommand) then
            -- line 341: the technique already exists, skip emission
            .ok st1
          else
            match st1.displayName with
            | none => .error .nameError
            | some dn =>
              let rcd : NewYaml :=
                { id := attackUUID, name := dn,
                  description := descFormat testDescription,
                  tactic := tactic, attack_id := attackID,
                  techniqueName := attackName, executorKey := key,
                  command := ncmd }
              .ok { st1 with
                written := st1.written ++
                  [{ dir := tactic, fileUuid := attackUUID, record := rcd }],
                csvFile := st1.csvFile ++
                  [{ uuidIsStr := false, attackUUID := attackUUID,
                     attackID := attackID, origCommand := origCommand,
                     command := ncmd }],
                varCsvFile := st1.varCsvFile ++ varList }

/-- Lines 199-201: assign the displayName variable when the key is
present; keep the previous value (possibly from an earlier file, or
still unset) otherwise. -/
def updateDisplay (st : PState) (d : Option String) : PState :=
  match d with
  | some dn => { st with displayName := some dn }
  | none => st

/-- Lines 185-342: process one file of a walk entry. -/
def processFile (fs : List AttackPattern) (cmdWrap : String) (gen : Nat → Nat)
    (st : PState) (f : SrcFile) : Except PErr PState :=
  if pyLower f.ext == ".yaml" then
    match f.parsed with
    | none => .error .unparseableFile
    | some y =>
      let st1 := updateDisplay st y.display_name
      match y.attack_technique with
      | none => .ok st1
      | some attackID =>
        match getMITREPhase fs attackID with
        | .error e => .error e
        | .ok phase =>
          let tactic := phase.getD "unknown"
          match y.atomic_tests with
          | none => .ok st1
          | some tests =>
            tests.foldlM (processTest gen cmdWrap tactic attackID) st1
  else .ok st

/-- Lines 184-360: process one directory yielded by the walk, then
rewrite both CSV files in full (header plus every in-memory row). -/
def processEntry (fs : List AttackPattern) (cmdWrap : String) (gen : Nat → Nat)
    (st : PState) (e : WalkEntry) : Except PErr PState :=
  match e.files.foldlM (processFile fs cmdWrap gen) st with
  | .error er => .error er
  | .ok st1 =>
    .ok { st1 with
      csvWrites := st1.csvWrites ++ [st1.csvFile],
      varWrites := st1.varWrites ++ [st1.varCsvFile] }

/-- The walk of main(): process the entries in order; a raised error
aborts the whole run, keeping the state as of the last entry boundary
(the CSV rewrites of an aborted entry never happen). -/
def runEntries (fs : List AttackPattern) (cmdWrap : String) (gen : Nat → Nat) :
    PState → List WalkEntry → PState × Option PErr
  | st, [] => (st, none)
  | st, e :: rest =>
    match processEntry fs cmdWrap gen st e with
    | .error er => (st, some er)
    | .ok st1 => runEntries fs cmdWrap gen st1 rest

/-- csv.DictReader loading of lines 156-179: every field read from disk
is a string, so the uuid column comes back string-typed. -/
def loadRow (r : LedgerRow) : LedgerRow := { r with uuidIsStr := true }

/-- The state at the start of main(): ledgers loaded from the files
(absent or unreadable files load as the empty list and are simply
passed here as []), nothing written, no displayName assigned yet. -/
def initState (csv0 : List LedgerRow) (var0 : List VarRow) : PState :=
  { csvFile := csv0.map loadRow, varCsvFile := var0, written := [],
    csvWrites := [], varWrites := [], displayName := none,
    uuidCtr := 0, genIdxs := [] }

/-- main() of lines 150-360 over a walk, starting from the on-disk
ledgers csv0 and var0 — the intended reading.  The committed file is
rejected at tokenization, so no invocation of the program realises any
run of this function; it describes the design only. -/
def runMain (fs : List AttackPattern) (cmdWrap : String) (gen : Nat → Nat)
    (walk : List WalkEntry) (csv0 : List LedgerRow) (var0 : List VarRow) :
    PState × Option PErr :=
  runEntries fs cmdWrap gen (initState csv0 var0) walk

/-! ## Preflight header check -/

/-- The header line the test ledger is written with (line 346) and that
checkCSVPath expects (line 69). -/
def csvHeaderLine : String := "attackUUID,attackID,origCommand,command\n"

/-- The header line the variable ledger is written with (line 355). -/
def varCsvHeaderLine : String := "attackUUID,attackID,executor,variable,value\n"

/-- Lines 61-77: checkCSVPath, applied by the entry point to BOTH
ledger paths (lines 405-406).  The argument is the first line of the
file when it exists, none when it does not (a missing file passes). -/
def checkCSVPath (firstLine : Option String) : Bool :=
  match firstLine with
  | none => true
  | some line => line == csvHeaderLine

/-! ## Source indentation and the Python 3 tokenizer

The indentation of the source lines the claims turn on, embedded byte
for byte, together with the CPython tokenizer rule those bytes
violate.  Line 270 is the only space-indented line of the file; all
surrounding code uses tabs. -/

/-- Tokenizer column of an indentation prefix at a given tab size: a
space advances one column, a tab advances to the next multiple of the
tab size (CPython tokenizer). -/
def pyIndentColAux (tabsize : Nat) : Nat → List Char → Nat
  | col, [] => col
  | col, c :: rest =>
    if c == '\t' then
      pyIndentColAux tabsize (col / tabsize * tabsize + tabsize) rest
    else
      pyIndentColAux tabsize (col + 1) rest

def pyIndentCol (tabsize : Nat) (ind : List Char) : Nat :=
  pyIndentColAux tabsize 0 ind

/-- The CPython consistency rule: the tokenizer measures every
indentation both at tab size 8 and at tab size 1, and comparing the
indentation of a new logical line against the enclosing indentation
must come out the same way under both measures; when the two
comparisons disagree, tokenization aborts with TabError before any
statement of the file executes. -/
def tabsConsistent (ind1 ind2 : List Char) : Bool :=
  (compare (pyIndentCol 8 ind1) (pyIndentCol 8 ind2)) ==
    (compare (pyIndentCol 1 ind1) (pyIndentCol 1 ind2))

/-- Indentation of source line 184, the os.walk loop header — one
tab. -/
def srcLine184Indent : List Char := List.replicate 1 '\t'

/-- Indentation of source line 185, the per-file loop header — two
tabs. -/
def srcLine185Indent : List Char := List.replicate 2 '\t'

/-- Indentation of source line 269, the backslash-repair replace in
the final else of the executor dispatch — eight tabs. -/
def srcLine269Indent : List Char := List.replicate 8 '\t'

/-- Indentation of source line 270, the semicolon-join replace — 64
space characters, the only space indentation in the file. -/
def srcLine270Indent : List Char := List.replicate 64 ' '

/-- Indentation of source line 271, the assignment of the psh executor
key — seven tabs. -/
def srcLine271Indent : List Char := List.replicate 7 '\t'

/-- Indentation of source line 345, the with-open statement starting
the test-ledger rewrite block — two tabs: inside the walk loop of line
184, at the same depth as the per-file loop of line 185. -/
def srcLine345Indent : List Char := List.replicate 2 '\t'

/-- Indentation of source line 354, the with-open statement of the
variable-ledger rewrite — two tabs. -/
def srcLine354Indent : List Char := List.replicate 2 '\t'

/-! ## Statement-level fragments of main()

Small accesses quoted by the claim theorems, embedded from lines that
are themselves well formed. -/

/-- Line 222: the description is read with an unguarded dictionary
subscript — a missing key raises KeyError; the source text has no
blank-value fallback for it. -/
def descriptionLookup (d : Option String) : Except PErr String :=
  match d with
  | none => Except.error PErr.keyError
  | some s => Except.ok s

/-- Line 288 reads the local variable displayName, which lines 199-200
assign only when an already-processed file carried a display_name key:
referenced before any assignment it raises NameError, and otherwise it
holds the most recent assignment — possibly the display name of an
earlier file. -/
def displayNameLookup (v : Option String) : Except PErr String :=
  match v with
  | none => Except.error PErr.nameError
  | some s => Except.ok s

/-- The guard of line 259: the lower-cased executor name equals "sh"
or "bash". -/
def unixFamilyGuard (exe : String) : Bool :=
  pyLower exe == "sh" || pyLower exe == "bash"

/-- The guard of line 262: the lower-cased executor name equals
"command_prompt" or "powershell". -/
def winFamilyGuard (exe : String) : Bool :=
  pyLower exe == "command_prompt" || pyLower exe == "powershell"

/-- Lines 209-210: a None classification is replaced by the string
"unknown". -/
def tacticDefault (t : Option String) : String :=
  match t with
  | none => "unknown"
  | some s => s

/-- A pipeline state whose displayName variable holds the display name
of an earlier file. -/
def staleDState : PState :=
  { csvFile := [], varCsvFile := [], written := [], csvWrites := [],
    varWrites := [], displayName := some "D", uuidCtr := 0,
    genIdxs := [] }

/-! ## Derived predicates used by the statements and proofs -/

/-- The deduplication test of line 282 on a ledger: some row carries
this (technique identifier, original command) pair. -/
def hasKey (L : List LedgerRow) (a o : String) : Bool :=
  L.any (fun l => l.attackID == a && l.origCommand == o)

/-- The identifier column of the test ledger. -/
def uuidCol (L : List LedgerRow) : List Nat := L.map (fun r => r.attackUUID)

/-- Invariant tying the uuid supply to the state: every drawn index is
below the next counter value, drawn indices are pairwise distinct, the
ledger identifier column has no duplicates, and every row appended
during the run carries a supply value drawn at some past index. -/
def UuidInv (gen : Nat → Nat) (st : PState) : Prop :=
  (∀ j ∈ st.genIdxs, j < st.uuidCtr) ∧ st.genIdxs.Nodup ∧
  (uuidCol st.csvFile).Nodup ∧
  (∀ r ∈ st.csvFile, r.uuidIsStr = false →
    ∃ i, i < st.uuidCtr ∧ r.attackUUID = gen i)

/-! ## Concrete fixtures for the closed statements -/

/-- A well-formed atomic test with the given executor name and
command. -/
def sampleTest (exe cmd : String) : AtomicTest :=
  { name := some "Say Hi", description := some "says hi",
    executor := { name := exe, command := some cmd },
    input_arguments := none }

/-- A well-formed definition file with display name "D". -/
def sampleFile (aid : String) (tests : List AtomicTest) : SrcFile :=
  { ext := ".yaml",
    parsed := some { display_name := some "D", attack_technique := some aid,
                     atomic_tests := some tests } }

/-- A definition file whose only test omits the description key. -/
def noDescFile : SrcFile :=
  { ext := ".yaml",
    parsed := some { display_name := some "D", attack_technique := some "T1059",
                     atomic_tests := some
                       [{ sampleTest "bash" "echo hi" with description := none }] } }

/-- A definition file that omits the display_name key. -/
def noDisplayFile (aid exe cmd : String) : SrcFile :=
  { ext := ".yaml",
    parsed := some { display_name := none, attack_technique := some aid,
                     atomic_tests := some [sampleTest exe cmd] } }

/-- A definition file that yaml.load fails to parse. -/
def badFile : SrcFile := { ext := ".yaml", parsed := none }

/-- A test whose executor name matches none of the four recognised
families. -/
def skipTest : AtomicTest := sampleTest "manual" "do it by hand"

/-- The state processTest reaches on skipTest from the fresh initial
state: the uuid counter advanced, nothing emitted. -/
def skipResultState : PState :=
  { csvFile := [], varCsvFile := [], written := [], csvWrites := [],
    varWrites := [], displayName := none, uuidCtr := 1, genIdxs := [0] }

/-- Growth relation between pipeline states: every list-valued
component only ever grows by appends. -/
def StateMono (st st' : PState) : Prop :=
  st.csvFile <+: st'.csvFile ∧ st.varCsvFile <+: st'.varCsvFile ∧
  st.written <+: st'.written ∧ st.csvWrites <+: st'.csvWrites ∧
  st.varWrites <+: st'.varWrites

/-- The observable payload of a state is unchanged (the uuid counter
and drawn-index trace may differ). -/
def SamePayload (st st' : PState) : Prop :=
  st'.csvFile = st.csvFile ∧ st'.varCsvFile = st.varCsvFile ∧
  st'.written = st.written ∧ st'.csvWrites = st.csvWrites ∧
  st'.varWrites = st.varWrites

/-! ## Claim C2 -/

/-- Claim C2 (status: code_bug).  The claim says each ledger file is
validated against the header of its own schema.  The entry point
(lines 405-406) instead runs checkCSVPath on both paths, and
checkCSVPath compares any first line against the test-ledger header
only (line 69).  Evaluating the code at the failing input: the header
the program itself writes into the variable ledger at line 355 is
rejected (so a second run against the files of a first run aborts with
usage help), while a variable ledger bearing the test-ledger header
would pass. -/
theorem checkCSVPath_rejects_own_var_header :
    checkCSVPath (some varCsvHeaderLine) = false ∧
    checkCSVPath (some csvHeaderLine) = true ∧
    checkCSVPath none = true := by decide

/-! ## The committed file never tokenizes: claims C1 and C3-C9

Each theorem of this section settles one run-level claim against the
file as committed (claim C10 is settled further below, next to the
string lemmas it needs).  Each combines the decisive fact — the
indentation of line 270 compares equal to that of line 269 at tab size
8 but not at tab size 1, so Python 3 rejects the file with TabError
before executing anything — with the statement-level content of the
fragments the claim is about. -/

/-- Claim C7 (status: code_bug).  The claim says a powershell command
is emitted under key "psh" with every newline replaced by a semicolon
plus newline.  The semicolon join is line 270, and line 270 is the
space-indented line: its indentation measures equal to that of line
269 at tab size 8 but not at tab size 1, so CPython raises TabError at
tokenization and the program never emits anything under any executor —
the claimed normalisation exists only as the evident intent of the
powershell branch (rendered by normalizeExec in the intended-reading
model). -/
theorem powershell_join_line_untokenizable :
    srcLine269Indent.all (fun c => c == '\t') = true ∧
    srcLine270Indent.all (fun c => c == ' ') = true ∧
    pyIndentCol 8 srcLine269Indent = pyIndentCol 8 srcLine270Indent ∧
    pyIndentCol 1 srcLine269Indent ≠ pyIndentCol 1 srcLine270Indent ∧
    tabsConsistent srcLine269Indent srcLine270Indent = false := by decide

/-- Claim C1 (status: code_bug).  The claim says a second run over an
unchanged input emits nothing new because every technique-identifier /
original-command pair already matches a ledger row.  The deduplication
key of line 282, embedded as hasKey, does recognise an
already-catalogued pair and does miss a fresh one (and the
intended-reading model is proved idempotent below, in
pipeline_idempotent); but the program cannot be run a second time — or
a first — because the committed file fails Python 3 tokenization at
line 270. -/
theorem dedup_key_sound_but_file_untokenizable :
    hasKey [{ uuidIsStr := true, attackUUID := 7, attackID := "T1059",
              origCommand := "echo hi", command := "echo hi" }]
      "T1059" "echo hi" = true ∧
    hasKey [] "T1059" "echo hi" = false ∧
    tabsConsistent srcLine269Indent srcLine270Indent = false := by decide

/-- Claim C4 (status: code_bug).  The claim says every emitted test
draws a fresh identifier, retried until it collides with nothing in
the ledger identifier column.  The retry loop of lines 225-230,
embedded as pickIdx, does skip a string-typed colliding value and
accept the next one — while a row whose identifier is a uuid object
(one appended during the same run, line 333) never matches the
str-comparison of line 229 — and the intended-reading model keeps the
column duplicate-free (identifier_uniqueness below).  But no
identifier is ever drawn: the committed file fails Python 3
tokenization at line 270, so the loop never executes. -/
theorem uuid_retry_but_file_untokenizable :
    pickIdx id [{ uuidIsStr := true, attackUUID := 0, attackID := "T1059",
                  origCommand := "c", command := "c" }] 2 0 = 1 ∧
    pickIdx id [{ uuidIsStr := false, attackUUID := 0, attackID := "T1059",
                  origCommand := "c", command := "c" }] 2 0 = 0 ∧
    tabsConsistent srcLine269Indent srcLine270Indent = false := by decide

/-- Claim C8 (status: code_bug).  The claim says a test whose executor
name matches none of the four recognised families — and a command-less
test, whose executor key becomes the empty string — is skipped with no
output file and no ledger row.  The guards of lines 259 and 262,
embedded here, indeed reject such names while accepting the four
family names case-insensitively, which in the source text leaves only
the final continue of line 273; but the dispatch construct of lines
258-273 contains the very line (270) whose indentation makes the file
illegal Python 3, so no test is ever dispatched, skipped or
emitted. -/
theorem executor_guards_but_file_untokenizable :
    unixFamilyGuard "manual" = false ∧ winFamilyGuard "manual" = false ∧
    unixFamilyGuard "" = false ∧ winFamilyGuard "" = false ∧
    unixFamilyGuard "SH" = true ∧ winFamilyGuard "PowerShell" = true ∧
    tabsConsistent srcLine269Indent srcLine270Indent = false := by decide

/-- Claim C9 (status: code_bug).  The claim says an identifier with no
matching attack-pattern record resolves to the sentinel, the pipeline
substitutes the classification "unknown", and the output file is
written into a directory named "unknown".  The resolver of lines
50-59, embedded as getMITREPhase, does return the none sentinel on a
no-match identifier (and the first phase of a matching record
otherwise), and the substitution of lines 209-210 does turn the
sentinel into "unknown" — the emission half is proved of the
intended-reading model in classification_fallback below.  But nothing
is ever resolved or written: the committed file fails Python 3
tokenization at line 270 before any lookup runs. -/
theorem classification_sentinel_but_no_run :
    getMITREPhase [] "T9999" = Except.ok none ∧
    getMITREPhase [{ typ := "attack-pattern", external_ids := ["T1059"],
                     kill_chain_phases := ["execution"] }] "T9999" =
      Except.ok none ∧
    getMITREPhase [{ typ := "attack-pattern", external_ids := ["T1059"],
                     kill_chain_phases := ["execution"] }] "T1059" =
      Except.ok (some "execution") ∧
    tacticDefault none = "unknown" ∧
    tacticDefault (some "execution") = "execution" ∧
    tabsConsistent srcLine269Indent srcLine270Indent = false :=
  ⟨rfl, rfl, rfl, rfl, rfl, by decide⟩

/-- Claim C3, counterexample.  The claim says the backing ledger files
are rewritten in full exactly once, at the end of the run,
equivalently once per top-level input subdirectory.  Neither half
survives the source: the rewrite block of lines 344-360 is indented
two tabs — inside the walk loop of line 184 (one tab), at the very
depth of the per-file loop of line 185 — so the text places it after
every yielded directory of any depth, not at the end of the run; and
no rewrite ever executes at all, because the committed file fails
Python 3 tokenization at line 270. -/
theorem ledger_rewrite_inside_walk_loop :
    srcLine345Indent = srcLine185Indent ∧
    srcLine354Indent = srcLine185Indent ∧
    pyIndentCol 8 srcLine184Indent < pyIndentCol 8 srcLine345Indent ∧
    tabsConsistent srcLine269Indent srcLine270Indent = false := by decide

/-- Claim C3, amended.  The ledger files are never rewritten at all —
the committed file aborts at tokenization (TabError for the
space-indented line 270) before opening any file — and in the source
text the full-rewrite block of lines 344-360 sits one indentation
level inside the walk loop of line 184, placed to run once per yielded
directory rather than once at the end of the run (the intended-reading
model realises exactly that placement, see
ledgers_append_only_rewritten_per_entry below). -/
theorem ledger_rewrite_design_and_no_run :
    pyIndentCol 8 srcLine345Indent = pyIndentCol 8 srcLine184Indent + 8 ∧
    pyIndentCol 1 srcLine345Indent = pyIndentCol 1 srcLine184Indent + 1 ∧
    pyIndentCol 8 srcLine354Indent = pyIndentCol 8 srcLine184Indent + 8 ∧
    tabsConsistent srcLine269Indent srcLine270Indent = false := by decide

/-- Claim C5, counterexample.  The claim reasons that the ledger
rewrite only ever happens at the very end of traversal, so a mid-run
abort cannot leave the files rewritten.  That premise is false of the
source text — the rewrite statements of lines 345 and 354 are indented
strictly inside the walk loop of line 184 — and the conclusion holds
only vacuously: the committed file fails Python 3 tokenization at line
270, so no traversal, no mid-run abort and no rewrite ever occurs. -/
theorem no_rewrite_at_end_of_traversal :
    pyIndentCol 1 srcLine184Indent < pyIndentCol 1 srcLine345Indent ∧
    pyIndentCol 1 srcLine184Indent < pyIndentCol 1 srcLine354Indent ∧
    tabsConsistent srcLine269Indent srcLine270Indent = false := by decide

/-- Claim C5, amended.  No invocation ever touches the on-disk ledger
files: the only abort the committed program can produce is the
TabError of line 270, raised at tokenization — the indentations of
lines 269 and 270 measure 64 and 64 columns at tab size 8 but 8 and 64
at tab size 1 — before any file is opened, so after every (always
aborted) invocation the files hold exactly their pre-run content.  The
claimed end-of-traversal placement of the rewrite is in any case false
of the source text, whose rewrite block sits inside the walk loop. -/
theorem abort_only_at_tokenization :
    tabsConsistent srcLine269Indent srcLine270Indent = false ∧
    pyIndentCol 8 srcLine269Indent = 64 ∧
    pyIndentCol 8 srcLine270Indent = 64 ∧
    pyIndentCol 1 srcLine269Indent = 8 ∧
    pyIndentCol 1 srcLine270Indent = 64 ∧
    srcLine345Indent = srcLine185Indent := by decide

/-- Claim C6, counterexample.  The claim says a missing display name
or description never aborts processing and blank values are carried
forward.  The extraction code has no blank-value fallback: line 222
reads the description with an unguarded dictionary subscript, which
raises KeyError on a missing key, and line 288 references the
displayName variable, which raises NameError when no processed file
ever assigned it; and no entry is ever processed anyway, the committed
file being rejected by Python 3 at tokenization (line 270). -/
theorem description_subscript_keyerror :
    descriptionLookup none = Except.error PErr.keyError ∧
    displayNameLookup none = Except.error PErr.nameError ∧
    tabsConsistent srcLine269Indent srcLine270Indent = false :=
  ⟨rfl, rfl, by decide⟩

/-- Claim C6, amended.  The extraction logic is strict where the claim
says it is lenient: the unguarded subscript of line 222 raises
KeyError for a missing description, and the displayName reference of
line 288 raises NameError when no earlier file assigned the variable —
lines 199-201 assign it only when a display_name key is present, so
for a later file without one the stale earlier name, never a blank,
is carried forward (the assignment is embedded as updateDisplay).  And
no test entry is ever extracted, because the committed file fails
Python 3 tokenization at line 270. -/
theorem missing_fields_no_blank_fallback :
    descriptionLookup none = Except.error PErr.keyError ∧
    descriptionLookup (some "says hi") = Except.ok "says hi" ∧
    displayNameLookup none = Except.error PErr.nameError ∧
    (updateDisplay staleDState none).displayName = some "D" ∧
    (updateDisplay staleDState (some "E")).displayName = some "E" ∧
    tabsConsistent srcLine269Indent srcLine270Indent = false :=
  ⟨rfl, rfl, rfl, rfl, rfl, by decide⟩

/-! ## Intended-reading model: strict field extraction -/

/-- Intended-reading model: on a one-file input whose only test omits
the description key, the run aborts with the KeyError of the unguarded
access at line 222. -/
theorem missing_description_aborts :
    (runMain [] "W" id [⟨[noDescFile]⟩] [] []).2 = some PErr.keyError := by
  decide

/-- Intended-reading model: a test omitting the description aborts the
run with a key error (line 222); a file omitting display_name aborts
at emission with a name error when no earlier file set the variable
(line 288); and when an earlier file did set it, the stale previous
display name — not a blank — is emitted for the later file. -/
theorem missing_fields_abort_or_go_stale :
    (runMain [] "W" id [⟨[noDescFile]⟩] [] []).2 = some PErr.keyError ∧
    (runMain [] "W" id [⟨[noDisplayFile "T1059" "bash" "echo hi"]⟩] [] []).2 =
      some PErr.nameError ∧
    ((runMain [] "W" id
        [⟨[sampleFile "T1059" [sampleTest "bash" "echo hi"],
           noDisplayFile "T1060" "sh" "echo other"]⟩] [] []).1.written.map
      (fun f => f.record.name)) = ["D", "D"] := by decide

/-! ## Intended-reading model: command normalisation -/

/-- Intended-reading model: a source command "line1\nline2" written
with a literal backslash-n, under executor sh or bash, is emitted
under executor key "bash" as the real two-line string; the same source
command under executor powershell is emitted under key "psh" with
every real newline replaced by a semicolon plus newline (lines
258-271, with line 270 read as part of the powershell branch). -/
theorem command_normalization_by_family :
    ((runMain [] "W" id [⟨[sampleFile "T1" [sampleTest "sh" "line1\\nline2"]]⟩]
        [] []).1.written.map (fun f => (f.record.executorKey, f.record.command))) =
      [("bash", "line1\nline2")] ∧
    ((runMain [] "W" id [⟨[sampleFile "T1" [sampleTest "bash" "line1\\nline2"]]⟩]
        [] []).1.written.map (fun f => (f.record.executorKey, f.record.command))) =
      [("bash", "line1\nline2")] ∧
    ((runMain [] "W" id [⟨[sampleFile "T1" [sampleTest "powershell" "line1\\nline2"]]⟩]
        [] []).1.written.map (fun f => (f.record.executorKey, f.record.command))) =
      [("psh", "line1;\nline2")] := by decide

/-! ## Intended-reading model: per-directory ledger rewrites -/

/-- Intended-reading model: on a successful run whose walk yields two
directories (the second one empty), the rewrite block of lines 344-360
executes twice, because it sits inside the os.walk loop and runs once
per yielded directory of any depth. -/
theorem ledger_rewritten_once_per_directory :
    (runMain [] "W" id
        [⟨[sampleFile "T1059" [sampleTest "bash" "echo hi"]]⟩, ⟨[]⟩] [] []).2 =
      none ∧
    (runMain [] "W" id
        [⟨[sampleFile "T1059" [sampleTest "bash" "echo hi"]]⟩, ⟨[]⟩] [] []).1.csvWrites.length = 2 ∧
    (runMain [] "W" id
        [⟨[sampleFile "T1059" [sampleTest "bash" "echo hi"]]⟩, ⟨[]⟩] [] []).1.varWrites.length = 2 := by
  decide

/-- Intended-reading model: with an empty pre-run ledger, a first
directory that emits one test and a second directory holding an
unparseable file, the run aborts after the first directory already
rewrote the ledger file with one new row, so the content after the
abort differs from the pre-run content. -/
theorem abort_after_first_directory_rewrite :
    (runMain [] "W" id
        [⟨[sampleFile "T1059" [sampleTest "bash" "echo hi"]]⟩, ⟨[badFile]⟩] [] []).2 =
      some PErr.unparseableFile ∧
    (runMain [] "W" id
        [⟨[sampleFile "T1059" [sampleTest "bash" "echo hi"]]⟩, ⟨[badFile]⟩] [] []).1.csvWrites.getLastD [] ≠
      ([] : List LedgerRow) := by decide

/-! ## Claim C10, counterexample -/

/-- Claim C10, counterexample.  The claim says every command free of
the text "x07", of backslashes and of surrounding quote characters
passes through the round trip of lines 234-239 unchanged, the repaired
command being stored in the ledger and emitted.  The transform those
well-formed lines prescribe — embedded as fixCommand — mangles the
non-ASCII command "é", which satisfies all three provisos, because
line 235 encodes the repr as UTF-8 and then decodes it with
unicode_escape, which reads each non-escape byte as latin-1; and
nothing is ever stored or emitted at all, the committed file being
rejected by Python 3 at tokenization (line 270). -/
theorem roundtrip_mangles_non_ascii :
    listHasSub ['x', '0', '7'] "é".toList = false ∧
    "é".toList.all (fun c => !(c == '\\') && !(c == '\'') && !(c == '"')) = true ∧
    fixCommand "é" ≠ "é" ∧ fixCommand "é" = "Ã©" ∧
    tabsConsistent srcLine269Indent srcLine270Indent = false := by decide


/-! ## String lemmas for the round-trip theorem -/

theorem replaceListAux_id_of_not_sub (pat rep : List Char) :
    ∀ (fuel : Nat) (l : List Char), listHasSub pat l = false →
      replaceListAux pat rep fuel l = l := by
  intro fuel
  induction fuel with
  | zero => intro l _; cases l <;> rfl
  | succ n ih =>
    intro l hl
    cases l with
    | nil => rfl
    | cons c rest =>
      simp only [listHasSub, Bool.or_eq_false_iff] at hl
      simp [replaceListAux, hl.1, ih rest hl.2]

theorem replaceList_id_of_not_sub (pat rep l : List Char)
    (h : listHasSub pat l = false) : replaceList pat rep l = l :=
  replaceListAux_id_of_not_sub pat rep l.length l h

theorem listHasSub_x07_cons (c : Char) (l : List Char)
    (hc : ('x' == c) = false) :
    listHasSub ['x', '0', '7'] (c :: l) = listHasSub ['x', '0', '7'] l := by
  simp [listHasSub, List.isPrefixOf, hc]

theorem listHasSub_x07_append (q : Char) (hq : (('7' : Char) == q) = false) :
    ∀ (l : List Char), listHasSub ['x', '0', '7'] l = false →
      listHasSub ['x', '0', '7'] (l ++ [q]) = false := by
  intro l
  induction l with
  | nil => intro _; simp [listHasSub, List.isPrefixOf]
  | cons c rest ih =>
    intro hl
    simp only [listHasSub, Bool.or_eq_false_iff] at hl
    have h2 := ih hl.2
    cases rest with
    | nil =>
      simp [listHasSub, List.isPrefixOf, hq]
    | cons b rest2 =>
      cases rest2 with
      | nil =>
        simp only [List.cons_append, List.nil_append] at h2 ⊢
        simp [listHasSub, List.isPrefixOf, hq, h2]
      | cons d rest3 =>
        have h1 := hl.1
        simp only [List.cons_append] at h2 ⊢
        simp only [listHasSub, Bool.or_eq_false_iff] at h2 ⊢
        refine ⟨?_, h2⟩
        simp only [List.isPrefixOf, Bool.and_true] at h1 ⊢
        exact h1

theorem flatten_map_single {α β : Type} (f : α → β) :
    ∀ l : List α, (l.map (fun a => [f a])).flatten = l.map f := by
  intro l; induction l with
  | nil => rfl
  | cons c rest ih => simp [ih]

theorem reprEscChar_plain (c : Char) (h1 : 32 ≤ c.toNat) (h2 : c.toNat < 127)
    (h3 : (c == '\\') = false) (h4 : (c == '\'') = false) :
    reprEscChar '\'' c = [c] := by
  have e10 : (c == '\n') = false := by
    rw [beq_eq_false_iff_ne]; rintro rfl; exact absurd h1 (by decide)
  have e13 : (c == '\r') = false := by
    rw [beq_eq_false_iff_ne]; rintro rfl; exact absurd h1 (by decide)
  have e9 : (c == '\t') = false := by
    rw [beq_eq_false_iff_ne]; rintro rfl; exact absurd h1 (by decide)
  have hrange : (decide (c.toNat < 32) || c.toNat == 127 ||
      (decide (128 ≤ c.toNat) && decide (c.toNat ≤ 160)) || c.toNat == 173) = false := by
    simp only [Bool.or_eq_false_iff, Bool.and_eq_false_iff, decide_eq_false_iff_not,
      beq_eq_false_iff_ne]
    omega
  simp [reprEscChar, h3, h4, e10, e13, e9, hrange]

theorem reprQuote_plain (l : List Char) (h : ∀ c ∈ l, (c == '\'') = false) :
    reprQuote l = '\'' := by
  have hc : l.contains '\'' = false := by
    rw [List.contains_eq_any_beq, List.any_eq_false]
    intro x hx
    have hx2 := h x hx
    rw [beq_eq_false_iff_ne] at hx2
    simp only [beq_iff_eq]
    exact fun e => hx2 e.symm
  unfold reprQuote
  rw [hc, Bool.false_and]
  rfl

theorem pyReprList_plain (l : List Char)
    (h : ∀ c ∈ l, 32 ≤ c.toNat ∧ c.toNat < 127 ∧ (c == '\\') = false ∧
      (c == '\'') = false) :
    pyReprList l = '\'' :: (l ++ ['\'']) := by
  have hq : reprQuote l = '\'' := reprQuote_plain l (fun c hc => (h c hc).2.2.2)
  have hdef : pyReprList l =
      reprQuote l :: ((l.map (reprEscChar (reprQuote l))).flatten ++ [reprQuote l]) := rfl
  rw [hdef, hq]
  have hmap : l.map (reprEscChar '\'') = l.map (fun c => [c]) := by
    apply List.map_congr_left
    intro c hc
    exact reprEscChar_plain c (h c hc).1 (h c hc).2.1 (h c hc).2.2.1 (h c hc).2.2.2
  rw [hmap]
  have hflat := flatten_map_single (fun c : Char => c) l
  simp only [List.map_id_fun'] at hflat
  simp [hflat]

theorem utf8Char_ascii (c : Char) (h : c.toNat < 128) : utf8Char c = [c.toNat] := by
  simp [utf8Char, h]

theorem utf8Bytes_ascii (l : List Char) (h : ∀ c ∈ l, c.toNat < 128) :
    utf8Bytes l = l.map Char.toNat := by
  unfold utf8Bytes
  have hmap : l.map utf8Char = l.map (fun c => [Char.toNat c]) :=
    List.map_congr_left (fun c hc => utf8Char_ascii c (h c hc))
  rw [hmap, flatten_map_single Char.toNat]

theorem uDecodeAux_plain : ∀ (fuel : Nat) (bs : List Nat),
    (∀ b ∈ bs, (b == 92) = false) → uDecodeAux fuel bs = bs.map Char.ofNat := by
  intro fuel
  induction fuel with
  | zero => intro bs _; cases bs <;> rfl
  | succ n ih =>
    intro bs h
    cases bs with
    | nil => rfl
    | cons b rest =>
      have hb : (b == 92) = false := h b (by simp)
      have ht := ih rest (fun x hx => h x (by simp [hx]))
      have hstep : uDecodeStep b rest = ([Char.ofNat b], rest) := by
        unfold uDecodeStep
        rw [hb]
        rfl
      simp only [uDecodeAux, hstep, ht, List.map_cons]
      rfl

theorem uDecode_plain (bs : List Nat) (h : ∀ b ∈ bs, (b == 92) = false) :
    uDecode bs = bs.map Char.ofNat := uDecodeAux_plain bs.length bs h

theorem dropWhile_eq_self_of (p : Char → Bool) (l : List Char)
    (h : ∀ c ∈ l, p c = false) : l.dropWhile p = l := by
  cases l with
  | nil => rfl
  | cons c rest =>
    have hc := h c (by simp)
    simp [List.dropWhile_cons, hc]

theorem stripCharList_wrap (l : List Char)
    (h : ∀ c ∈ l, (c == '\'') = false) :
    stripCharList '\'' ('\'' :: (l ++ ['\''])) = l := by
  unfold stripCharList
  rw [List.dropWhile_cons]
  simp only [beq_self_eq_true, if_true]
  cases l with
  | nil => rfl
  | cons c rest =>
    have hc : (c == '\'') = false := h c (by simp)
    rw [List.cons_append, List.dropWhile_cons]
    simp only [hc, Bool.false_eq_true, if_false]
    have hrev : ((c :: rest) ++ ['\'']).reverse = '\'' :: (c :: rest).reverse := by
      rw [List.reverse_append]; rfl
    rw [show (c :: (rest ++ ['\''])) = ((c :: rest) ++ ['\'']) by rfl, hrev,
      List.dropWhile_cons]
    simp only [beq_self_eq_true, if_true]
    rw [dropWhile_eq_self_of _ _ (fun x hx => h x (List.mem_reverse.mp hx)),
      List.reverse_reverse]

theorem strMk_toList (s : String) : String.mk s.toList = s := rfl

theorem fixCommand_plain (s : String)
    (h : ∀ c ∈ s.toList, 32 ≤ c.toNat ∧ c.toNat < 127 ∧ (c == '\\') = false ∧
      (c == '\'') = false)
    (hx : listHasSub ['x', '0', '7'] s.toList = false) :
    fixCommand s = s := by
  have hrepr : (pyRepr s).toList = '\'' :: (s.toList ++ ['\'']) := by
    show pyReprList s.toList = _
    exact pyReprList_plain s.toList h
  have hWsub : listHasSub ['x', '0', '7'] ('\'' :: (s.toList ++ ['\''])) = false := by
    rw [listHasSub_x07_cons '\'' _ (by decide)]
    exact listHasSub_x07_append '\'' (by decide) s.toList hx
  have hsub : (subX07 (pyRepr s)).toList = '\'' :: (s.toList ++ ['\'']) := by
    show replaceList "x07".toList "a".toList (pyRepr s).toList = _
    rw [hrepr]
    exact replaceList_id_of_not_sub _ _ _ hWsub
  have hWascii : ∀ c ∈ ('\'' :: (s.toList ++ ['\''])), c.toNat < 128 := by
    intro c hc
    rcases List.mem_cons.mp hc with rfl | hc2
    · decide
    · rcases List.mem_append.mp hc2 with hc3 | hc4
      · exact Nat.lt_of_lt_of_le (h c hc3).2.1 (by omega)
      · rcases List.mem_singleton.mp hc4 with rfl
        decide
  have hW92 : ∀ b ∈ ('\'' :: (s.toList ++ ['\''])).map Char.toNat,
      (b == 92) = false := by
    intro b hb
    rcases List.mem_map.mp hb with ⟨c, hc, rfl⟩
    rw [beq_eq_false_iff_ne]
    intro he
    have hcc : c = '\\' := by
      have := congrArg Char.ofNat he
      rwa [Char.ofNat_toNat] at this
    rcases List.mem_cons.mp hc with rfl | hc2
    · exact absurd hcc (by decide)
    · rcases List.mem_append.mp hc2 with hc3 | hc4
      · have := (h c hc3).2.2.1
        rw [beq_eq_false_iff_ne] at this
        exact this hcc
      · rcases List.mem_singleton.mp hc4 with rfl
        exact absurd hcc (by decide)
  have hdec : uDecode (utf8Bytes ('\'' :: (s.toList ++ ['\'']))) =
      '\'' :: (s.toList ++ ['\'']) := by
    rw [utf8Bytes_ascii _ hWascii, uDecode_plain _ hW92, List.map_map]
    have : ∀ c ∈ ('\'' :: (s.toList ++ ['\''])),
        (Char.ofNat ∘ Char.toNat) c = id c := by
      intro c _
      simp [Char.ofNat_toNat]
    rw [List.map_congr_left this, List.map_id]
  have hround : reprRoundTrip s = String.mk ('\'' :: (s.toList ++ ['\''])) := by
    unfold reprRoundTrip
    rw [hsub, hdec]
  unfold fixCommand
  rw [hround]
  show (if ('\'' == '\'') = true
      then String.mk (stripCharList '\'' ('\'' :: (s.toList ++ ['\''])))
      else if ('\'' == '"') = true
      then String.mk (stripCharList '"' ('\'' :: (s.toList ++ ['\''])))
      else String.mk ('\'' :: (s.toList ++ ['\'']))) = s
  rw [if_pos (show ('\'' == '\'') = true from rfl),
    stripCharList_wrap s.toList (fun c hc => (h c hc).2.2.2)]
  exact strMk_toList s

/-! ## Claim C10, amended -/

/-- Claim C10, amended.  The escaped-representation repair prescribed
by lines 234 and 249 replaces every occurrence of the three-character
text "x07" in the repr, not only the escape of the bell character: the
bell-free command "0x07" comes out of the command transform as "0a",
and an argument default "0x07" as the repr text with the same
alteration.  A printable-ASCII command free of the text "x07", of
backslashes and of quote characters passes through the round trip
unchanged (non-ASCII commands are mangled, see the counterexample).
No transformed command is ever stored in a ledger or emitted into an
output file, because the committed file fails Python 3 tokenization at
line 270. -/
theorem x07_repair_alters_and_ascii_roundtrips (s : String)
    (hchars : ∀ c ∈ s.toList, 32 ≤ c.toNat ∧ c.toNat < 127 ∧
      (c == '\\') = false ∧ (c == '\'') = false ∧ (c == '"') = false)
    (hx : listHasSub ['x', '0', '7'] s.toList = false) :
    fixCommand "0x07" = "0a" ∧
    argValueTransform "0x07" = "'0a'" ∧
    tabsConsistent srcLine269Indent srcLine270Indent = false ∧
    fixCommand s = s := by
  refine ⟨by decide, by decide, by decide, ?_⟩
  exact fixCommand_plain s
    (fun c hc => ⟨(hchars c hc).1, (hchars c hc).2.1,
      (hchars c hc).2.2.1, (hchars c hc).2.2.2.1⟩) hx

/-- Witness for the amended claim C10 at the concrete command
"echo hi". -/
theorem x07_repair_witness :
    fixCommand "0x07" = "0a" ∧
    argValueTransform "0x07" = "'0a'" ∧
    tabsConsistent srcLine269Indent srcLine270Indent = false ∧
    fixCommand "echo hi" = "echo hi" :=
  x07_repair_alters_and_ascii_roundtrips "echo hi" (by decide) (by decide)

/-! ## Monotonicity of the pipeline state -/

theorem stateMono_refl (st : PState) : StateMono st st :=
  ⟨List.prefix_refl _, List.prefix_refl _, List.prefix_refl _,
   List.prefix_refl _, List.prefix_refl _⟩

theorem stateMono_trans {a b c : PState} (h1 : StateMono a b)
    (h2 : StateMono b c) : StateMono a c :=
  ⟨h1.1.trans h2.1, h1.2.1.trans h2.2.1, h1.2.2.1.trans h2.2.2.1,
   h1.2.2.2.1.trans h2.2.2.2.1, h1.2.2.2.2.trans h2.2.2.2.2⟩

theorem updateDisplay_fields (st : PState) (d : Option String) :
    (updateDisplay st d).csvFile = st.csvFile ∧
    (updateDisplay st d).varCsvFile = st.varCsvFile ∧
    (updateDisplay st d).written = st.written ∧
    (updateDisplay st d).csvWrites = st.csvWrites ∧
    (updateDisplay st d).varWrites = st.varWrites ∧
    (updateDisplay st d).uuidCtr = st.uuidCtr ∧
    (updateDisplay st d).genIdxs = st.genIdxs := by
  cases d <;> simp [updateDisplay]

theorem processTest_mono (gen : Nat → Nat) (w tac aid : String)
    (st : PState) (t : AtomicTest) (st' : PState)
    (h : processTest gen w tac aid st t = .ok st') :
    st.csvFile <+: st'.csvFile ∧ st.varCsvFile <+: st'.varCsvFile ∧
    st.written <+: st'.written ∧ st'.csvWrites = st.csvWrites ∧
    st'.varWrites = st.varWrites ∧ st'.displayName = st.displayName := by
  simp only [processTest] at h
  split at h
  · simp at h
  · split at h
    · simp at h
    · split at h
      · cases h
        exact ⟨List.prefix_refl _, List.prefix_refl _, List.prefix_refl _,
          rfl, rfl, rfl⟩
      · split at h
        · cases h
          exact ⟨List.prefix_refl _, List.prefix_refl _, List.prefix_refl _,
            rfl, rfl, rfl⟩
        · split at h
          · cases h
            exact ⟨List.prefix_refl _, List.prefix_refl _, List.prefix_refl _,
              rfl, rfl, rfl⟩
          · split at h
            · simp at h
            · cases h
              exact ⟨List.prefix_append _ _, List.prefix_append _ _,
                List.prefix_append _ _, rfl, rfl, rfl⟩

theorem processTests_mono (gen : Nat → Nat) (w tac aid : String) :
    ∀ (tests : List AtomicTest) (st st' : PState),
      tests.foldlM (processTest gen w tac aid) st = .ok st' →
      st.csvFile <+: st'.csvFile ∧ st.varCsvFile <+: st'.varCsvFile ∧
      st.written <+: st'.written ∧ st'.csvWrites = st.csvWrites ∧
      st'.varWrites = st.varWrites ∧ st'.displayName = st.displayName := by
  intro tests
  induction tests with
  | nil =>
    intro st st' h
    cases h
    exact ⟨List.prefix_refl _, List.prefix_refl _, List.prefix_refl _,
      rfl, rfl, rfl⟩
  | cons t rest ih =>
    intro st st' h
    rw [List.foldlM_cons] at h
    cases hm : processTest gen w tac aid st t with
    | error e => rw [hm] at h; simp [Bind.bind, Except.bind] at h
    | ok stm =>
      rw [hm] at h
      simp only [Bind.bind, Except.bind] at h
      have h1 := processTest_mono gen w tac aid st t stm hm
      have h2 := ih stm st' h
      exact ⟨h1.1.trans h2.1, h1.2.1.trans h2.2.1, h1.2.2.1.trans h2.2.2.1,
        h2.2.2.2.1.trans h1.2.2.2.1, h2.2.2.2.2.1.trans h1.2.2.2.2.1,
        h2.2.2.2.2.2.trans h1.2.2.2.2.2⟩

theorem processFile_mono (fs : List AttackPattern) (w : String) (gen : Nat → Nat)
    (st : PState) (f : SrcFile) (st' : PState)
    (h : processFile fs w gen st f = .ok st') :
    st.csvFile <+: st'.csvFile ∧ st.varCsvFile <+: st'.varCsvFile ∧
    st.written <+: st'.written ∧ st'.csvWrites = st.csvWrites ∧
    st'.varWrites = st.varWrites := by
  simp only [processFile] at h
  split at h
  · split at h
    · simp at h
    · rename_i y hy
      have uf := updateDisplay_fields st y.display_name
      split at h
      · cases h
        rw [uf.1, uf.2.1, uf.2.2.1, uf.2.2.2.1, uf.2.2.2.2.1]
        exact ⟨List.prefix_refl _, List.prefix_refl _, List.prefix_refl _,
          rfl, rfl⟩
      · split at h
        · simp at h
        · split at h
          · cases h
            rw [uf.1, uf.2.1, uf.2.2.1, uf.2.2.2.1, uf.2.2.2.2.1]
            exact ⟨List.prefix_refl _, List.prefix_refl _, List.prefix_refl _,
              rfl, rfl⟩
          · have hm := processTests_mono gen w _ _ _ _ _ h
            rw [uf.1, uf.2.1, uf.2.2.1, uf.2.2.2.1, uf.2.2.2.2.1] at hm
            exact ⟨hm.1, hm.2.1, hm.2.2.1, hm.2.2.2.1, hm.2.2.2.2.1⟩
  · cases h
    exact ⟨List.prefix_refl _, List.prefix_refl _, List.prefix_refl _, rfl, rfl⟩

theorem processFiles_mono (fs : List AttackPattern) (w : String) (gen : Nat → Nat) :
    ∀ (files : List SrcFile) (st st' : PState),
      files.foldlM (processFile fs w gen) st = .ok st' →
      st.csvFile <+: st'.csvFile ∧ st.varCsvFile <+: st'.varCsvFile ∧
      st.written <+: st'.written ∧ st'.csvWrites = st.csvWrites ∧
      st'.varWrites = st.varWrites := by
  intro files
  induction files with
  | nil =>
    intro st st' h
    cases h
    exact ⟨List.prefix_refl _, List.prefix_refl _, List.prefix_refl _, rfl, rfl⟩
  | cons f rest ih =>
    intro st st' h
    rw [List.foldlM_cons] at h
    cases hm : processFile fs w gen st f with
    | error e => rw [hm] at h; simp [Bind.bind, Except.bind] at h
    | ok stm =>
      rw [hm] at h
      simp only [Bind.bind, Except.bind] at h
      have h1 := processFile_mono fs w gen st f stm hm
      have h2 := ih stm st' h
      exact ⟨h1.1.trans h2.1, h1.2.1.trans h2.2.1, h1.2.2.1.trans h2.2.2.1,
        h2.2.2.2.1.trans h1.2.2.2.1, h2.2.2.2.2.trans h1.2.2.2.2⟩

theorem processEntry_mono (fs : List AttackPattern) (w : String) (gen : Nat → Nat)
    (st : PState) (en : WalkEntry) (st' : PState)
    (h : processEntry fs w gen st en = .ok st') :
    st.csvFile <+: st'.csvFile ∧ st.varCsvFile <+: st'.varCsvFile ∧
    st.written <+: st'.written ∧
    st'.csvWrites = st.csvWrites ++ [st'.csvFile] ∧
    st'.varWrites = st.varWrites ++ [st'.varCsvFile] := by
  simp only [processEntry] at h
  cases hm : en.files.foldlM (processFile fs w gen) st with
  | error e => rw [hm] at h; simp at h
  | ok stm =>
    rw [hm] at h
    cases h
    have h1 := processFiles_mono fs w gen en.files st stm hm
    exact ⟨h1.1, h1.2.1, h1.2.2.1, by rw [h1.2.2.2.1], by rw [h1.2.2.2.2]⟩

theorem runEntries_mono (fs : List AttackPattern) (w : String) (gen : Nat → Nat) :
    ∀ (walk : List WalkEntry) (st st' : PState) (e : Option PErr),
      runEntries fs w gen st walk = (st', e) →
      StateMono st st' ∧
      (∀ x ∈ st'.csvWrites, x ∈ st.csvWrites ∨ st.csvFile <+: x) ∧
      (∀ x ∈ st'.varWrites, x ∈ st.varWrites ∨ st.varCsvFile <+: x) := by
  intro walk
  induction walk with
  | nil =>
    intro st st' e h
    cases h
    exact ⟨stateMono_refl st, fun x hx => Or.inl hx, fun x hx => Or.inl hx⟩
  | cons en rest ih =>
    intro st st' e h
    simp only [runEntries] at h
    cases hm : processEntry fs w gen st en with
    | error er =>
      rw [hm] at h
      cases h
      exact ⟨stateMono_refl st, fun x hx => Or.inl hx, fun x hx => Or.inl hx⟩
    | ok stm =>
      rw [hm] at h
      have h1 := processEntry_mono fs w gen st en stm hm
      have hmono1 : StateMono st stm :=
        ⟨h1.1, h1.2.1, h1.2.2.1, by rw [h1.2.2.2.1]; exact List.prefix_append _ _,
         by rw [h1.2.2.2.2]; exact List.prefix_append _ _⟩
      have h2 := ih stm st' e h
      refine ⟨stateMono_trans hmono1 h2.1, ?_, ?_⟩
      · intro x hx
        rcases h2.2.1 x hx with hx1 | hx2
        · rw [h1.2.2.2.1] at hx1
          rcases List.mem_append.mp hx1 with hx3 | hx4
          · exact Or.inl hx3
          · rcases List.mem_singleton.mp hx4 with rfl
            exact Or.inr h1.1
        · exact Or.inr (h1.1.trans hx2)
      · intro x hx
        rcases h2.2.2 x hx with hx1 | hx2
        · rw [h1.2.2.2.2] at hx1
          rcases List.mem_append.mp hx1 with hx3 | hx4
          · exact Or.inl hx3
          · rcases List.mem_singleton.mp hx4 with rfl
            exact Or.inr h1.2.1
        · exact Or.inr (h1.2.1.trans hx2)

/-! ## Intended-reading model: ledger persistence -/

theorem runEntries_count (fs : List AttackPattern) (w : String) (gen : Nat → Nat) :
    ∀ (walk : List WalkEntry) (st st' : PState),
      runEntries fs w gen st walk = (st', none) →
      st'.csvWrites.length = st.csvWrites.length + walk.length ∧
      st'.varWrites.length = st.varWrites.length + walk.length ∧
      (walk ≠ [] → st'.csvWrites.getLast? = some st'.csvFile ∧
        st'.varWrites.getLast? = some st'.varCsvFile) := by
  intro walk
  induction walk with
  | nil =>
    intro st st' h
    cases h
    exact ⟨rfl, rfl, fun hne => absurd rfl hne⟩
  | cons en rest ih =>
    intro st st' h
    simp only [runEntries] at h
    cases hm : processEntry fs w gen st en with
    | error er => rw [hm] at h; simp at h
    | ok stm =>
      rw [hm] at h
      have em := processEntry_mono fs w gen st en stm hm
      have hlen1 : stm.csvWrites.length = st.csvWrites.length + 1 := by
        rw [em.2.2.2.1]; simp
      have hlen2 : stm.varWrites.length = st.varWrites.length + 1 := by
        rw [em.2.2.2.2]; simp
      cases rest with
      | nil =>
        cases h
        refine ⟨by rw [hlen1]; simp, by rw [hlen2]; simp, fun _ => ?_⟩
        rw [em.2.2.2.1, em.2.2.2.2]
        exact ⟨List.getLast?_concat _, List.getLast?_concat _⟩
      | cons r rs =>
        have hi := ih stm st' h
        refine ⟨by rw [hi.1, hlen1]; simp only [List.length_cons]; omega,
          by rw [hi.2.1, hlen2]; simp only [List.length_cons]; omega,
          fun _ => hi.2.2 (by simp)⟩

/-- Intended-reading model: both ledgers are mutated only by in-memory
append (the pre-run rows stay a prefix of the final in-memory rows),
and the backing files are rewritten in full once per directory yielded
by the walk — the input root and every nested subdirectory, hence
several times in a multi-directory run, not exactly once — with the
rewrite at the last yielded directory holding the complete final
content. -/
theorem ledgers_append_only_rewritten_per_entry (fs : List AttackPattern)
    (w : String) (gen : Nat → Nat) (walk : List WalkEntry)
    (csv0 : List LedgerRow) (var0 : List VarRow) (st : PState)
    (h : runMain fs w gen walk csv0 var0 = (st, none)) :
    csv0.map loadRow <+: st.csvFile ∧ var0 <+: st.varCsvFile ∧
    st.csvWrites.length = walk.length ∧ st.varWrites.length = walk.length ∧
    (walk ≠ [] → st.csvWrites.getLast? = some st.csvFile ∧
      st.varWrites.getLast? = some st.varCsvFile) := by
  unfold runMain at h
  have rm := runEntries_mono fs w gen walk (initState csv0 var0) st none h
  have rc := runEntries_count fs w gen walk (initState csv0 var0) st h
  have h1 : (initState csv0 var0).csvFile = csv0.map loadRow := rfl
  have h2 : (initState csv0 var0).varCsvFile = var0 := rfl
  have h3 : (initState csv0 var0).csvWrites = [] := rfl
  have h4 : (initState csv0 var0).varWrites = [] := rfl
  refine ⟨?_, ?_, ?_, ?_, rc.2.2⟩
  · rw [← h1]; exact rm.1.1
  · rw [← h2]; exact rm.1.2.1
  · rw [rc.1, h3]; simp
  · rw [rc.2.1, h4]; simp

/-- The per-directory rewrite count at the concrete two-directory
input. -/
theorem ledgers_rewrite_witness :
    ([] : List LedgerRow).map loadRow <+:
      (runMain [] "W" id [⟨[sampleFile "T1059" [sampleTest "bash" "echo hi"]]⟩, ⟨[]⟩] [] []).1.csvFile ∧
    ([] : List VarRow) <+:
      (runMain [] "W" id [⟨[sampleFile "T1059" [sampleTest "bash" "echo hi"]]⟩, ⟨[]⟩] [] []).1.varCsvFile ∧
    (runMain [] "W" id [⟨[sampleFile "T1059" [sampleTest "bash" "echo hi"]]⟩, ⟨[]⟩] [] []).1.csvWrites.length =
      ([⟨[sampleFile "T1059" [sampleTest "bash" "echo hi"]]⟩, ⟨[]⟩] : List WalkEntry).length ∧
    (runMain [] "W" id [⟨[sampleFile "T1059" [sampleTest "bash" "echo hi"]]⟩, ⟨[]⟩] [] []).1.varWrites.length =
      ([⟨[sampleFile "T1059" [sampleTest "bash" "echo hi"]]⟩, ⟨[]⟩] : List WalkEntry).length ∧
    (([⟨[sampleFile "T1059" [sampleTest "bash" "echo hi"]]⟩, ⟨[]⟩] : List WalkEntry) ≠ [] →
      (runMain [] "W" id [⟨[sampleFile "T1059" [sampleTest "bash" "echo hi"]]⟩, ⟨[]⟩] [] []).1.csvWrites.getLast? =
        some (runMain [] "W" id [⟨[sampleFile "T1059" [sampleTest "bash" "echo hi"]]⟩, ⟨[]⟩] [] []).1.csvFile ∧
      (runMain [] "W" id [⟨[sampleFile "T1059" [sampleTest "bash" "echo hi"]]⟩, ⟨[]⟩] [] []).1.varWrites.getLast? =
        some (runMain [] "W" id [⟨[sampleFile "T1059" [sampleTest "bash" "echo hi"]]⟩, ⟨[]⟩] [] []).1.varCsvFile) :=
  ledgers_append_only_rewritten_per_entry [] "W" id
    [⟨[sampleFile "T1059" [sampleTest "bash" "echo hi"]]⟩, ⟨[]⟩] [] []
    (runMain [] "W" id [⟨[sampleFile "T1059" [sampleTest "bash" "echo hi"]]⟩, ⟨[]⟩] [] []).1
    (by decide)

/-- Intended-reading model: the ledger files are never left partial or
truncated by an abort: every rewrite performed during a run — and in
particular the last one on disk when a mid-run failure aborts the
traversal — is a full-content rewrite that extends the pre-run rows,
so the pre-run rows are always a prefix of the written content; but an
abort after the first completed directory leaves ledgers already
rewritten with new rows, not the pre-run content. -/
theorem abort_keeps_prerun_rows_prefixed (fs : List AttackPattern)
    (w : String) (gen : Nat → Nat) (walk : List WalkEntry)
    (csv0 : List LedgerRow) (var0 : List VarRow) (st : PState) (e : Option PErr)
    (h : runMain fs w gen walk csv0 var0 = (st, e)) :
    (∀ x ∈ st.csvWrites, csv0.map loadRow <+: x) ∧
    (∀ x ∈ st.varWrites, var0 <+: x) := by
  unfold runMain at h
  have rm := runEntries_mono fs w gen walk (initState csv0 var0) st e h
  constructor
  · intro x hx
    rcases rm.2.1 x hx with h1 | h2
    · exact absurd h1 (by simp [initState])
    · exact h2
  · intro x hx
    rcases rm.2.2 x hx with h1 | h2
    · exact absurd h1 (by simp [initState])
    · exact h2

/-- The prefix property at a concrete aborted run of the model. -/
theorem abort_prefix_witness :
    (∀ x ∈ (runMain [] "W" id
        [⟨[sampleFile "T1059" [sampleTest "bash" "echo hi"]]⟩, ⟨[badFile]⟩] [] []).1.csvWrites,
      ([] : List LedgerRow).map loadRow <+: x) ∧
    (∀ x ∈ (runMain [] "W" id
        [⟨[sampleFile "T1059" [sampleTest "bash" "echo hi"]]⟩, ⟨[badFile]⟩] [] []).1.varWrites,
      ([] : List VarRow) <+: x) :=
  abort_keeps_prerun_rows_prefixed [] "W" id
    [⟨[sampleFile "T1059" [sampleTest "bash" "echo hi"]]⟩, ⟨[badFile]⟩] [] []
    (runMain [] "W" id [⟨[sampleFile "T1059" [sampleTest "bash" "echo hi"]]⟩, ⟨[badFile]⟩] [] []).1
    (runMain [] "W" id [⟨[sampleFile "T1059" [sampleTest "bash" "echo hi"]]⟩, ⟨[badFile]⟩] [] []).2
    (by decide)

/-! ## Intended-reading model: executor filtering -/

theorem normalizeExec_skip_of_unrecognized (w exe cmd : String)
    (h1 : pyLower exe ≠ "sh") (h2 : pyLower exe ≠ "bash")
    (h3 : pyLower exe ≠ "command_prompt") (h4 : pyLower exe ≠ "powershell") :
    normalizeExec w exe cmd = .skip := by
  have c1 : (pyLower exe == "sh" || pyLower exe == "bash") = false := by
    simp only [Bool.or_eq_false_iff, beq_eq_false_iff_ne]
    exact ⟨h1, h2⟩
  have c2 : (pyLower exe == "command_prompt" || pyLower exe == "powershell") = false := by
    simp only [Bool.or_eq_false_iff, beq_eq_false_iff_ne]
    exact ⟨h3, h4⟩
  unfold normalizeExec
  rw [c1, c2]
  rfl

/-- Intended-reading model: a test whose executor name is not one of
the four recognised keys — and likewise a test without a command
field, whose executor key becomes the empty string — writes no output
file and adds no row to either ledger: whenever processTest returns
normally on such a test, the written-file list and both in-memory
ledgers are exactly as before (lines 254-273 reach the final
continue). -/
theorem executor_filtering (gen : Nat → Nat) (w tac aid : String)
    (st : PState) (t : AtomicTest) (st' : PState)
    (hexe : t.executor.command = none ∨
      (pyLower t.executor.name ≠ "sh" ∧ pyLower t.executor.name ≠ "bash" ∧
       pyLower t.executor.name ≠ "command_prompt" ∧
       pyLower t.executor.name ≠ "powershell"))
    (h : processTest gen w tac aid st t = .ok st') :
    st'.written = st.written ∧ st'.csvFile = st.csvFile ∧
    st'.varCsvFile = st.varCsvFile := by
  simp only [processTest] at h
  split at h
  · simp at h
  · split at h
    · simp at h
    · split at h
      · cases h
        exact ⟨rfl, rfl, rfl⟩
      · rename_i rawCmd hc
        rcases hexe with hnone | ⟨h1, h2, h3, h4⟩
        · rw [hc] at hnone; simp at hnone
        · have hskip := normalizeExec_skip_of_unrecognized w t.executor.name
            (fixCommand rawCmd) h1 h2 h3 h4
          rw [hskip] at h
          cases h
          exact ⟨rfl, rfl, rfl⟩

/-- The filtering fact at the concrete executor name "manual". -/
theorem executor_filtering_witness :
    skipResultState.written = (initState [] []).written ∧
    skipResultState.csvFile = (initState [] []).csvFile ∧
    skipResultState.varCsvFile = (initState [] []).varCsvFile :=
  executor_filtering id "W" "unknown" "T1" (initState [] []) skipTest
    skipResultState (Or.inr (by decide)) rfl

/-! ## Intended-reading model: classification fallback -/

/-- Intended-reading model: for a technique identifier with no
matching attack-pattern record in the knowledge base, getMITREPhase
returns the none sentinel (lines 55-59), the pipeline substitutes the
classification "unknown" (lines 209-210), the emitted record carries
tactic "unknown" and the output file is written into the directory
named "unknown", and classification resolution aborts nothing: the run
completes normally. -/
theorem classification_fallback (fs : List AttackPattern) (w : String)
    (gen : Nat → Nat) (aid : String)
    (hnm : ∀ r ∈ fs, ¬(r.typ = "attack-pattern" ∧ aid ∈ r.external_ids)) :
    getMITREPhase fs aid = .ok none ∧
    ∃ st, runMain fs w gen [⟨[sampleFile aid [sampleTest "bash" "echo hi"]]⟩] [] [] =
        (st, none) ∧
      st.written.map (fun f => (f.dir, f.record.tactic)) = [("unknown", "unknown")] := by
  have hfil : fs.filter (attackPatternMatches aid) = [] := by
    rw [List.filter_eq_nil_iff]
    intro r hr
    have hr2 := hnm r hr
    simp only [attackPatternMatches, Bool.and_eq_true, beq_iff_eq,
      List.contains_eq_any_beq, List.any_eq_true]
    rintro ⟨ht, x, hx, he⟩
    exact hr2 ⟨ht, he ▸ hx⟩
  have hph : getMITREPhase fs aid = .ok none := by
    unfold getMITREPhase
    rw [hfil]
  have hfile : processFile fs w gen (initState [] [])
      (sampleFile aid [sampleTest "bash" "echo hi"]) =
      .ok { csvFile := [{ uuidIsStr := false, attackUUID := gen 0, attackID := aid,
                          origCommand := "echo hi", command := "echo hi" }],
            varCsvFile := [],
            written := [{ dir := "unknown", fileUuid := gen 0,
                          record := { id := gen 0, name := "D",
                                      description := "says hi (Atomic Red Team)",
                                      tactic := "unknown", attack_id := aid,
                                      techniqueName := "Say Hi",
                                      executorKey := "bash",
                                      command := "echo hi" } }],
            csvWrites := [], varWrites := [], displayName := some "D",
            uuidCtr := 1, genIdxs := [0] } := by
    have hres : processFile fs w gen (initState [] [])
        (sampleFile aid [sampleTest "bash" "echo hi"]) =
        (match getMITREPhase fs aid with
         | .error e => .error e
         | .ok phase =>
             [sampleTest "bash" "echo hi"].foldlM
               (processTest gen w (phase.getD "unknown") aid)
               (updateDisplay (initState [] []) (some "D"))) := rfl
    rw [hres, hph]
    rfl
  refine ⟨hph, ?_⟩
  refine ⟨{ csvFile := [{ uuidIsStr := false, attackUUID := gen 0, attackID := aid,
                          origCommand := "echo hi", command := "echo hi" }],
            varCsvFile := [],
            written := [{ dir := "unknown", fileUuid := gen 0,
                          record := { id := gen 0, name := "D",
                                      description := "says hi (Atomic Red Team)",
                                      tactic := "unknown", attack_id := aid,
                                      techniqueName := "Say Hi",
                                      executorKey := "bash",
                                      command := "echo hi" } }],
            csvWrites := [[{ uuidIsStr := false, attackUUID := gen 0,
                             attackID := aid, origCommand := "echo hi",
                             command := "echo hi" }]],
            varWrites := [[]], displayName := some "D",
            uuidCtr := 1, genIdxs := [0] }, ?_, ?_⟩
  · unfold runMain runEntries processEntry
    rw [List.foldlM_cons, hfile]
    rfl
  · rfl

/-- The fallback at the empty knowledge base and identifier
"T9999". -/
theorem classification_fallback_witness :
    getMITREPhase [] "T9999" = .ok none ∧
    ∃ st, runMain [] "W" id [⟨[sampleFile "T9999" [sampleTest "bash" "echo hi"]]⟩] [] [] =
        (st, none) ∧
      st.written.map (fun f => (f.dir, f.record.tactic)) = [("unknown", "unknown")] :=
  classification_fallback [] "W" id "T9999" (by simp)

/-! ## Intended-reading model: idempotence of a second run -/

theorem samePayload_refl (st : PState) : SamePayload st st :=
  ⟨rfl, rfl, rfl, rfl, rfl⟩

theorem samePayload_trans {a b c : PState} (h1 : SamePayload a b)
    (h2 : SamePayload b c) : SamePayload a c :=
  ⟨h2.1.trans h1.1, h2.2.1.trans h1.2.1, h2.2.2.1.trans h1.2.2.1,
   h2.2.2.2.1.trans h1.2.2.2.1, h2.2.2.2.2.trans h1.2.2.2.2⟩

theorem samePayload_updateDisplay (st : PState) (d : Option String) :
    SamePayload st (updateDisplay st d) := by
  have uf := updateDisplay_fields st d
  exact ⟨uf.1, uf.2.1, uf.2.2.1, uf.2.2.2.1, uf.2.2.2.2.1⟩

theorem hasKey_mono {L t : List LedgerRow} (a o : String)
    (hk : hasKey L a o = true) : hasKey (L ++ t) a o = true := by
  unfold hasKey at *
  rw [List.any_append, hk, Bool.true_or]

theorem hasKey_appended (L : List LedgerRow) (r : LedgerRow) :
    hasKey (L ++ [r]) r.attackID r.origCommand = true := by
  unfold hasKey
  rw [List.any_append]
  simp

theorem hasKey_map_loadRow (L : List LedgerRow) (a o : String) :
    hasKey (L.map loadRow) a o = hasKey L a o := by
  unfold hasKey
  rw [List.any_map]
  rfl

theorem run2_processTest (gen1 gen2 : Nat → Nat) (w tac aid : String)
    (L2 : List LedgerRow) (sA sA' sB : PState) (t : AtomicTest)
    (h1 : processTest gen1 w tac aid sA t = .ok sA')
    (hcov : ∀ a o, hasKey sA'.csvFile a o = true → hasKey L2 a o = true)
    (hB : sB.csvFile = L2) :
    ∃ sB', processTest gen2 w tac aid sB t = .ok sB' ∧ SamePayload sB sB' := by
  cases hn : t.name with
  | none =>
    simp only [processTest, hn] at h1
    exact absurd h1 (by simp)
  | some nm =>
    cases hd : t.description with
    | none =>
      simp only [processTest, hn, hd] at h1
      exact absurd h1 (by simp)
    | some ds =>
      cases hc : t.executor.command with
      | none =>
        simp only [processTest, hn, hd, hc] at h1 ⊢
        cases h1
        exact ⟨sB, rfl, samePayload_refl sB⟩
      | some rawCmd =>
        simp only [processTest, hn, hd, hc] at h1 ⊢
        cases hne : normalizeExec w t.executor.name (fixCommand rawCmd) with
        | skip =>
          simp only [hne] at h1 ⊢
          cases h1
          exact ⟨_, rfl, ⟨rfl, rfl, rfl, rfl, rfl⟩⟩
        | keep key ncmd =>
          simp only [hne] at h1 ⊢
          by_cases hdup : sA.csvFile.any
            (fun l => l.attackID == aid && l.origCommand == fixCommand rawCmd) = true
          · rw [if_pos hdup] at h1
            cases h1
            have hkey : hasKey L2 aid (fixCommand rawCmd) = true :=
              hcov aid (fixCommand rawCmd) hdup
            rw [hB]
            rw [if_pos (show (L2.any fun l =>
              l.attackID == aid && l.origCommand == fixCommand rawCmd) = true from hkey)]
            exact ⟨_, rfl, ⟨hB.symm, rfl, rfl, rfl, rfl⟩⟩
          · rw [if_neg hdup] at h1
            cases hdn : sA.displayName with
            | none =>
              simp only [hdn] at h1
              exact absurd h1 (by simp)
            | some dn =>
              simp only [hdn] at h1
              cases h1
              have hkey : hasKey L2 aid (fixCommand rawCmd) = true := by
                apply hcov aid (fixCommand rawCmd)
                exact hasKey_appended sA.csvFile
                  { uuidIsStr := false,
                    attackUUID := gen1 (pickIdx gen1 sA.csvFile
                      (sA.csvFile.length + 1) sA.uuidCtr),
                    attackID := aid, origCommand := fixCommand rawCmd,
                    command := ncmd }
              rw [hB]
              rw [if_pos (show (L2.any fun l =>
                l.attackID == aid && l.origCommand == fixCommand rawCmd) = true from hkey)]
              exact ⟨_, rfl, ⟨hB.symm, rfl, rfl, rfl, rfl⟩⟩

theorem run2_processTests (gen1 gen2 : Nat → Nat) (w tac aid : String)
    (L2 : List LedgerRow) :
    ∀ (tests : List AtomicTest) (sA sA' sB : PState),
      tests.foldlM (processTest gen1 w tac aid) sA = .ok sA' →
      (∀ a o, hasKey sA'.csvFile a o = true → hasKey L2 a o = true) →
      sB.csvFile = L2 →
      ∃ sB', tests.foldlM (processTest gen2 w tac aid) sB = .ok sB' ∧
        SamePayload sB sB' := by
  intro tests
  induction tests with
  | nil =>
    intro sA sA' sB h _ _
    exact ⟨sB, rfl, samePayload_refl sB⟩
  | cons t rest ih =>
    intro sA sA' sB h hcov hB
    rw [List.foldlM_cons] at h ⊢
    cases hm : processTest gen1 w tac aid sA t with
    | error e => rw [hm] at h; simp [Bind.bind, Except.bind] at h
    | ok sAm =>
      rw [hm] at h
      simp only [Bind.bind, Except.bind] at h
      have hmono := processTests_mono gen1 w tac aid rest sAm sA' h
      have hcovm : ∀ a o, hasKey sAm.csvFile a o = true →
          hasKey L2 a o = true := by
        intro a o hk
        obtain ⟨tl, htl⟩ := hmono.1
        exact hcov a o (by rw [← htl]; exact hasKey_mono a o hk)
      obtain ⟨sBm, hBm, hpay⟩ :=
        run2_processTest gen1 gen2 w tac aid L2 sA sAm sB t hm hcovm hB
      obtain ⟨sB', hB', hpay'⟩ := ih sAm sA' sBm h hcov (hpay.1.trans hB)
      refine ⟨sB', ?_, samePayload_trans hpay hpay'⟩
      rw [hBm]
      simp only [Bind.bind, Except.bind]
      exact hB'

theorem run2_processFile (fs : List AttackPattern) (w : String)
    (gen1 gen2 : Nat → Nat) (L2 : List LedgerRow)
    (sA sA' sB : PState) (f : SrcFile)
    (h1 : processFile fs w gen1 sA f = .ok sA')
    (hcov : ∀ a o, hasKey sA'.csvFile a o = true → hasKey L2 a o = true)
    (hB : sB.csvFile = L2) :
    ∃ sB', processFile fs w gen2 sB f = .ok sB' ∧ SamePayload sB sB' := by
  by_cases hext : (pyLower f.ext == ".yaml") = true
  · simp only [processFile, if_pos hext] at h1 ⊢
    cases hp : f.parsed with
    | none => rw [hp] at h1; exact absurd h1 (by simp)
    | some y =>
      simp only [hp] at h1 ⊢
      cases ha : y.attack_technique with
      | none =>
        simp only [ha] at h1 ⊢
        cases h1
        exact ⟨_, rfl, samePayload_updateDisplay sB y.display_name⟩
      | some aid =>
        simp only [ha] at h1 ⊢
        cases hph : getMITREPhase fs aid with
        | error e => rw [hph] at h1; simp at h1
        | ok phase =>
          rw [hph] at h1
          cases hat : y.atomic_tests with
          | none =>
            simp only [hat] at h1 ⊢
            cases h1
            exact ⟨_, rfl, samePayload_updateDisplay sB y.display_name⟩
          | some tests =>
            simp only [hat] at h1 ⊢
            have hufB := updateDisplay_fields sB y.display_name
            obtain ⟨sB', hB', hpay⟩ :=
              run2_processTests gen1 gen2 w (phase.getD "unknown") aid L2 tests
                (updateDisplay sA y.display_name) sA'
                (updateDisplay sB y.display_name) h1 hcov (hufB.1.trans hB)
            exact ⟨sB', hB',
              samePayload_trans (samePayload_updateDisplay sB y.display_name) hpay⟩
  · simp only [processFile] at h1 ⊢
    rw [if_neg hext] at h1 ⊢
    cases h1
    exact ⟨sB, rfl, samePayload_refl sB⟩

theorem run2_processFiles (fs : List AttackPattern) (w : String)
    (gen1 gen2 : Nat → Nat) (L2 : List LedgerRow) :
    ∀ (files : List SrcFile) (sA sA' sB : PState),
      files.foldlM (processFile fs w gen1) sA = .ok sA' →
      (∀ a o, hasKey sA'.csvFile a o = true → hasKey L2 a o = true) →
      sB.csvFile = L2 →
      ∃ sB', files.foldlM (processFile fs w gen2) sB = .ok sB' ∧
        SamePayload sB sB' := by
  intro files
  induction files with
  | nil =>
    intro sA sA' sB h _ _
    exact ⟨sB, rfl, samePayload_refl sB⟩
  | cons f rest ih =>
    intro sA sA' sB h hcov hB
    rw [List.foldlM_cons] at h ⊢
    cases hm : processFile fs w gen1 sA f with
    | error e => rw [hm] at h; simp [Bind.bind, Except.bind] at h
    | ok sAm =>
      rw [hm] at h
      simp only [Bind.bind, Except.bind] at h
      have hmono := processFiles_mono fs w gen1 rest sAm sA' h
      have hcovm : ∀ a o, hasKey sAm.csvFile a o = true →
          hasKey L2 a o = true := by
        intro a o hk
        obtain ⟨tl, htl⟩ := hmono.1
        exact hcov a o (by rw [← htl]; exact hasKey_mono a o hk)
      obtain ⟨sBm, hBm, hpay⟩ :=
        run2_processFile fs w gen1 gen2 L2 sA sAm sB f hm hcovm hB
      obtain ⟨sB', hB', hpay'⟩ := ih sAm sA' sBm h hcov (hpay.1.trans hB)
      refine ⟨sB', ?_, samePayload_trans hpay hpay'⟩
      rw [hBm]
      simp only [Bind.bind, Except.bind]
      exact hB'

theorem run2_processEntry (fs : List AttackPattern) (w : String)
    (gen1 gen2 : Nat → Nat) (L2 : List LedgerRow)
    (sA sA' sB : PState) (en : WalkEntry)
    (h1 : processEntry fs w gen1 sA en = .ok sA')
    (hcov : ∀ a o, hasKey sA'.csvFile a o = true → hasKey L2 a o = true)
    (hB : sB.csvFile = L2) :
    ∃ sB', processEntry fs w gen2 sB en = .ok sB' ∧
      sB'.csvFile = L2 ∧ sB'.varCsvFile = sB.varCsvFile ∧
      sB'.written = sB.written := by
  simp only [processEntry] at h1 ⊢
  cases hf : en.files.foldlM (processFile fs w gen1) sA with
  | error e => rw [hf] at h1; exact absurd h1 (by simp)
  | ok sAm =>
    rw [hf] at h1
    cases h1
    obtain ⟨sBm, hBm, hpay⟩ :=
      run2_processFiles fs w gen1 gen2 L2 en.files sA sAm sB hf hcov hB
    rw [hBm]
    exact ⟨_, rfl, hpay.1.trans hB, hpay.2.1, hpay.2.2.1⟩

theorem run2_runEntries (fs : List AttackPattern) (w : String)
    (gen1 gen2 : Nat → Nat) (L2 : List LedgerRow) :
    ∀ (walk : List WalkEntry) (sA sA' sB : PState),
      runEntries fs w gen1 sA walk = (sA', none) →
      (∀ a o, hasKey sA'.csvFile a o = true → hasKey L2 a o = true) →
      sB.csvFile = L2 →
      ∃ sB', runEntries fs w gen2 sB walk = (sB', none) ∧
        sB'.csvFile = L2 ∧ sB'.varCsvFile = sB.varCsvFile ∧
        sB'.written = sB.written := by
  intro walk
  induction walk with
  | nil =>
    intro sA sA' sB h _ hB
    cases h
    exact ⟨sB, rfl, hB, rfl, rfl⟩
  | cons en rest ih =>
    intro sA sA' sB h hcov hB
    simp only [runEntries] at h ⊢
    cases he : processEntry fs w gen1 sA en with
    | error er => rw [he] at h; simp at h
    | ok sAm =>
      rw [he] at h
      have hmono := (runEntries_mono fs w gen1 rest sAm sA' none h).1
      have hcovm : ∀ a o, hasKey sAm.csvFile a o = true →
          hasKey L2 a o = true := by
        intro a o hk
        obtain ⟨tl, htl⟩ := hmono.1
        exact hcov a o (by rw [← htl]; exact hasKey_mono a o hk)
      obtain ⟨sBm, hBm, hL2m, hvarm, hwrm⟩ :=
        run2_processEntry fs w gen1 gen2 L2 sA sAm sB en he hcovm hB
      obtain ⟨sB', hB', hL2', hvar', hwr'⟩ := ih sAm sA' sBm h hcov hL2m
      refine ⟨sB', ?_, hL2', hvar'.trans hvarm, hwr'.trans hwrm⟩
      rw [hBm]
      exact hB'

/-- Intended-reading model: idempotence of the pipeline main().  If a
run over some walk from ledgers (csv0, var0) completes without error,
then a second run of main() over the same walk and knowledge
base, loading the ledgers the first run left in memory (the loadRow
map models the string typing that CSV persistence imposes on the uuid
column) and drawing identifiers from any fresh supply, also completes,
writes zero new ability files and appends zero rows to either ledger:
every test that reaches the deduplication check of line 282 finds its
(technique identifier, original command) pair already present. -/
theorem pipeline_idempotent (fs : List AttackPattern) (w : String)
    (gen1 gen2 : Nat → Nat) (walk : List WalkEntry)
    (csv0 : List LedgerRow) (var0 : List VarRow) (st1 : PState)
    (h : runMain fs w gen1 walk csv0 var0 = (st1, none)) :
    ∃ st2, runMain fs w gen2 walk st1.csvFile st1.varCsvFile = (st2, none) ∧
      st2.written = [] ∧ st2.csvFile = st1.csvFile.map loadRow ∧
      st2.varCsvFile = st1.varCsvFile := by
  unfold runMain at h ⊢
  have hcov : ∀ a o, hasKey st1.csvFile a o = true →
      hasKey (st1.csvFile.map loadRow) a o = true := by
    intro a o hk
    rw [hasKey_map_loadRow]
    exact hk
  obtain ⟨st2, h2, hcsv, hvar, hwr⟩ :=
    run2_runEntries fs w gen1 gen2 (st1.csvFile.map loadRow) walk
      (initState csv0 var0) st1 (initState st1.csvFile st1.varCsvFile) h hcov rfl
  exact ⟨st2, h2, hwr, hcsv, hvar⟩

/-- The idempotence fact at a concrete one-test input and two distinct
uuid supplies. -/
theorem pipeline_idempotent_witness :
    ∃ st2, runMain [] "W" (fun n => n + 7)
        [⟨[sampleFile "T1059" [sampleTest "bash" "echo hi"]]⟩]
        (runMain [] "W" id [⟨[sampleFile "T1059" [sampleTest "bash" "echo hi"]]⟩] [] []).1.csvFile
        (runMain [] "W" id [⟨[sampleFile "T1059" [sampleTest "bash" "echo hi"]]⟩] [] []).1.varCsvFile =
        (st2, none) ∧
      st2.written = [] ∧
      st2.csvFile =
        (runMain [] "W" id [⟨[sampleFile "T1059" [sampleTest "bash" "echo hi"]]⟩] [] []).1.csvFile.map loadRow ∧
      st2.varCsvFile =
        (runMain [] "W" id [⟨[sampleFile "T1059" [sampleTest "bash" "echo hi"]]⟩] [] []).1.varCsvFile :=
  pipeline_idempotent [] "W" id (fun n => n + 7)
    [⟨[sampleFile "T1059" [sampleTest "bash" "echo hi"]]⟩] [] []
    (runMain [] "W" id [⟨[sampleFile "T1059" [sampleTest "bash" "echo hi"]]⟩] [] []).1
    (by decide)

/-! ## Intended-reading model: identifier uniqueness -/

theorem pickIdx_ge (gen : Nat → Nat) (rows : List LedgerRow) :
    ∀ (fuel k : Nat), k ≤ pickIdx gen rows fuel k := by
  intro fuel
  induction fuel with
  | zero => intro k; exact Nat.le_refl k
  | succ n ih =>
    intro k
    unfold pickIdx
    split
    · exact Nat.le_trans (Nat.le_succ k) (ih (k + 1))
    · exact Nat.le_refl k

theorem pickIdx_spec (gen : Nat → Nat) (rows : List LedgerRow) :
    ∀ (fuel k : Nat),
      (((List.range fuel).map (fun i => gen (k + i))).filter
          (fun v => rows.any (fun r => r.uuidIsStr && r.attackUUID == v))).length < fuel →
      rows.any (fun r => r.uuidIsStr &&
        r.attackUUID == gen (pickIdx gen rows fuel k)) = false := by
  intro fuel
  induction fuel with
  | zero => intro k h; exact absurd h (Nat.not_lt_zero _)
  | succ n ih =>
    intro k h
    unfold pickIdx
    cases hck : rows.any (fun r => r.uuidIsStr && r.attackUUID == gen k) with
    | false =>
      rw [if_neg Bool.false_ne_true]
      exact hck
    | true =>
      rw [if_pos rfl]
      apply ih (k + 1)
      have hsplit : ((List.range (n + 1)).map (fun i => gen (k + i))) =
          gen k :: ((List.range n).map (fun i => gen ((k + 1) + i))) := by
        rw [List.range_succ_eq_map, List.map_cons, List.map_map]
        congr 1
        apply List.map_congr_left
        intro i _
        show gen (k + (i + 1)) = gen ((k + 1) + i)
        congr 1
        omega
      rw [hsplit, List.filter_cons] at h
      rw [hck] at h
      simp only [if_true, List.length_cons] at h
      omega

theorem pickIdx_count_lt (gen : Nat → Nat) (hinj : Function.Injective gen)
    (rows : List LedgerRow) (k : Nat) :
    (((List.range (rows.length + 1)).map (fun i => gen (k + i))).filter
        (fun v => rows.any (fun r => r.uuidIsStr && r.attackUUID == v))).length <
      rows.length + 1 := by
  have hnd : (((List.range (rows.length + 1)).map (fun i => gen (k + i))).filter
      (fun v => rows.any (fun r => r.uuidIsStr && r.attackUUID == v))).Nodup := by
    apply List.Nodup.filter
    apply List.Nodup.map
    · intro a b hab
      have := hinj hab
      omega
    · exact List.nodup_range _
  have hsub : ∀ v ∈ ((List.range (rows.length + 1)).map (fun i => gen (k + i))).filter
      (fun v => rows.any (fun r => r.uuidIsStr && r.attackUUID == v)),
      v ∈ (rows.filter (fun r => r.uuidIsStr)).map (fun r => r.attackUUID) := by
    intro v hv
    have hv2 := (List.mem_filter.mp hv).2
    rw [List.any_eq_true] at hv2
    obtain ⟨r, hr, hrb⟩ := hv2
    rw [Bool.and_eq_true] at hrb
    refine List.mem_map.mpr ⟨r, List.mem_filter.mpr ⟨hr, hrb.1⟩, ?_⟩
    rw [beq_iff_eq] at hrb
    exact hrb.2
  have hle := (List.Nodup.subperm hnd hsub).length_le
  rw [List.length_map] at hle
  have := List.length_filter_le (fun r => r.uuidIsStr) rows
  omega

theorem pickIdx_ok (gen : Nat → Nat) (hinj : Function.Injective gen)
    (rows : List LedgerRow) (k : Nat) :
    rows.any (fun r => r.uuidIsStr &&
      r.attackUUID == gen (pickIdx gen rows (rows.length + 1) k)) = false :=
  pickIdx_spec gen rows (rows.length + 1) k (pickIdx_count_lt gen hinj rows k)

theorem uuidCol_map_loadRow (L : List LedgerRow) :
    uuidCol (L.map loadRow) = uuidCol L := by
  unfold uuidCol
  rw [List.map_map]
  rfl

theorem uuidInv_bump (gen : Nat → Nat) (st : PState) (j : Nat)
    (hj : st.uuidCtr ≤ j) (hi : UuidInv gen st) :
    UuidInv gen { st with uuidCtr := j + 1, genIdxs := st.genIdxs ++ [j] } := by
  obtain ⟨h1, h2, h3, h4⟩ := hi
  refine ⟨?_, ?_, h3, ?_⟩
  · intro x hx
    have hx2 : x ∈ st.genIdxs ++ [j] := hx
    have hlt : x < j + 1 := by
      rcases List.mem_append.mp hx2 with hx1 | hx3
      · have := h1 x hx1
        omega
      · rcases List.mem_singleton.mp hx3 with rfl
        omega
    exact hlt
  · show (st.genIdxs ++ [j]).Nodup
    rw [List.nodup_append]
    refine ⟨h2, List.nodup_singleton j, ?_⟩
    intro a ha hb
    rcases List.mem_singleton.mp hb with rfl
    have := h1 a ha
    omega
  · intro r hr hru
    obtain ⟨i, hic, hie⟩ := h4 r hr hru
    refine ⟨i, ?_, hie⟩
    show i < j + 1
    omega

theorem processTest_uuidInv (gen : Nat → Nat) (hinj : Function.Injective gen)
    (w tac aid : String) (st : PState) (t : AtomicTest) (st' : PState)
    (h : processTest gen w tac aid st t = .ok st') (hi : UuidInv gen st) :
    UuidInv gen st' := by
  simp only [processTest] at h
  split at h
  · simp at h
  · split at h
    · simp at h
    · split at h
      · cases h; exact hi
      · rename_i rawCmd hc
        split at h
        · cases h
          exact uuidInv_bump gen st _ (pickIdx_ge gen st.csvFile _ st.uuidCtr) hi
        · rename_i key ncmd hne
          split at h
          · cases h
            exact uuidInv_bump gen st _ (pickIdx_ge gen st.csvFile _ st.uuidCtr) hi
          · split at h
            · simp at h
            · rename_i dn hdn
              cases h
              obtain ⟨h1, h2, h3, h4⟩ := hi
              have hjge := pickIdx_ge gen st.csvFile (st.csvFile.length + 1) st.uuidCtr
              have hfresh := pickIdx_ok gen hinj st.csvFile st.uuidCtr
              rw [List.any_eq_false] at hfresh
              set j := pickIdx gen st.csvFile (st.csvFile.length + 1) st.uuidCtr with hjdef
              refine ⟨?_, ?_, ?_, ?_⟩
              · intro x hx
                have hx2 : x ∈ st.genIdxs ++ [j] := hx
                have hlt : x < j + 1 := by
                  rcases List.mem_append.mp hx2 with hx1 | hx3
                  · have := h1 x hx1
                    omega
                  · rcases List.mem_singleton.mp hx3 with rfl
                    omega
                exact hlt
              · show (st.genIdxs ++ [j]).Nodup
                rw [List.nodup_append]
                refine ⟨h2, List.nodup_singleton _, ?_⟩
                intro a ha hb
                rcases List.mem_singleton.mp hb with rfl
                have := h1 _ ha
                omega
              · show (uuidCol (st.csvFile ++
                  [{ uuidIsStr := false, attackUUID := gen j, attackID := aid,
                     origCommand := fixCommand rawCmd, command := ncmd }])).Nodup
                unfold uuidCol
                rw [List.map_append, List.nodup_append]
                refine ⟨h3, List.nodup_singleton _, ?_⟩
                intro v hv hv2
                have hv3 : v = gen j := by simpa using hv2
                subst hv3
                rcases List.mem_map.mp hv with ⟨r, hr, hre⟩
                cases hstr : r.uuidIsStr with
                | true =>
                  have hf := hfresh r hr
                  rw [hstr] at hf
                  simp only [Bool.true_and] at hf
                  apply hf
                  rw [beq_iff_eq]
                  exact hre
                | false =>
                  obtain ⟨i, hic, hie⟩ := h4 r hr hstr
                  have hij : i = j := hinj (by rw [← hie]; exact hre)
                  omega
              · intro r hr hru
                have hr2 : r ∈ st.csvFile ++
                    [{ uuidIsStr := false, attackUUID := gen j, attackID := aid,
                       origCommand := fixCommand rawCmd, command := ncmd }] := hr
                have hgoal : ∃ i, i < j + 1 ∧ r.attackUUID = gen i := by
                  rcases List.mem_append.mp hr2 with hr1 | hr3
                  · obtain ⟨i, hic, hie⟩ := h4 r hr1 hru
                    exact ⟨i, by omega, hie⟩
                  · rcases List.mem_singleton.mp hr3 with rfl
                    exact ⟨j, by omega, rfl⟩
                exact hgoal

theorem updateDisplay_uuidInv (gen : Nat → Nat) (st : PState) (d : Option String)
    (hi : UuidInv gen st) : UuidInv gen (updateDisplay st d) := by
  cases d with
  | none => exact hi
  | some dn => exact hi

theorem processTests_uuidInv (gen : Nat → Nat) (hinj : Function.Injective gen)
    (w tac aid : String) :
    ∀ (tests : List AtomicTest) (st st' : PState),
      tests.foldlM (processTest gen w tac aid) st = .ok st' →
      UuidInv gen st → UuidInv gen st' := by
  intro tests
  induction tests with
  | nil => intro st st' h hi; cases h; exact hi
  | cons t rest ih =>
    intro st st' h hi
    rw [List.foldlM_cons] at h
    cases hm : processTest gen w tac aid st t with
    | error e => rw [hm] at h; simp [Bind.bind, Except.bind] at h
    | ok stm =>
      rw [hm] at h
      simp only [Bind.bind, Except.bind] at h
      exact ih stm st' h (processTest_uuidInv gen hinj w tac aid st t stm hm hi)

theorem processFile_uuidInv (fs : List AttackPattern) (w : String)
    (gen : Nat → Nat) (hinj : Function.Injective gen)
    (st : PState) (f : SrcFile) (st' : PState)
    (h : processFile fs w gen st f = .ok st') (hi : UuidInv gen st) :
    UuidInv gen st' := by
  simp only [processFile] at h
  split at h
  · split at h
    · simp at h
    · rename_i y hy
      split at h
      · cases h; exact updateDisplay_uuidInv gen st y.display_name hi
      · split at h
        · simp at h
        · split at h
          · cases h; exact updateDisplay_uuidInv gen st y.display_name hi
          · exact processTests_uuidInv gen hinj w _ _ _ _ _ h
              (updateDisplay_uuidInv gen st y.display_name hi)
  · cases h; exact hi

theorem processFiles_uuidInv (fs : List AttackPattern) (w : String)
    (gen : Nat → Nat) (hinj : Function.Injective gen) :
    ∀ (files : List SrcFile) (st st' : PState),
      files.foldlM (processFile fs w gen) st = .ok st' →
      UuidInv gen st → UuidInv gen st' := by
  intro files
  induction files with
  | nil => intro st st' h hi; cases h; exact hi
  | cons f rest ih =>
    intro st st' h hi
    rw [List.foldlM_cons] at h
    cases hm : processFile fs w gen st f with
    | error e => rw [hm] at h; simp [Bind.bind, Except.bind] at h
    | ok stm =>
      rw [hm] at h
      simp only [Bind.bind, Except.bind] at h
      exact ih stm st' h (processFile_uuidInv fs w gen hinj st f stm hm hi)

theorem processEntry_uuidInv (fs : List AttackPattern) (w : String)
    (gen : Nat → Nat) (hinj : Function.Injective gen)
    (st : PState) (en : WalkEntry) (st' : PState)
    (h : processEntry fs w gen st en = .ok st') (hi : UuidInv gen st) :
    UuidInv gen st' := by
  simp only [processEntry] at h
  cases hm : en.files.foldlM (processFile fs w gen) st with
  | error e => rw [hm] at h; simp at h
  | ok stm =>
    rw [hm] at h
    cases h
    exact processFiles_uuidInv fs w gen hinj en.files st stm hm hi

theorem runEntries_uuidInv (fs : List AttackPattern) (w : String)
    (gen : Nat → Nat) (hinj : Function.Injective gen) :
    ∀ (walk : List WalkEntry) (st st' : PState) (e : Option PErr),
      runEntries fs w gen st walk = (st', e) →
      UuidInv gen st → UuidInv gen st' := by
  intro walk
  induction walk with
  | nil => intro st st' e h hi; cases h; exact hi
  | cons en rest ih =>
    intro st st' e h hi
    simp only [runEntries] at h
    cases hm : processEntry fs w gen st en with
    | error er => rw [hm] at h; cases h; exact hi
    | ok stm =>
      rw [hm] at h
      exact ih stm st' e h (processEntry_uuidInv fs w gen hinj st en stm hm hi)

/-- Intended-reading model: with the uuid source modelled as an
injective supply (fresh random uuids), every test with a command field
draws an identifier through the retry loop of lines 225-230, which
regenerates until the draw collides with no string-typed value of the
in-memory ledger identifier column; across one run no two drawn
identifiers are equal (the drawn-index trace maps injectively), and
the identifier column of the test ledger contains no duplicates in the
final state of every run — aborted or not — over every walk, which
covers every intermediate ledger state since each is the final state
of a truncated run. -/
theorem identifier_uniqueness (fs : List AttackPattern) (w : String)
    (gen : Nat → Nat) (walk : List WalkEntry)
    (csv0 : List LedgerRow) (var0 : List VarRow) (st : PState) (e : Option PErr)
    (hinj : Function.Injective gen)
    (hnd : (uuidCol csv0).Nodup)
    (h : runMain fs w gen walk csv0 var0 = (st, e)) :
    (st.genIdxs.map gen).Nodup ∧ (uuidCol st.csvFile).Nodup := by
  have hinv : UuidInv gen (initState csv0 var0) := by
    refine ⟨?_, List.nodup_nil, ?_, ?_⟩
    · intro j hj
      exact absurd hj (List.not_mem_nil j)
    · show (uuidCol (csv0.map loadRow)).Nodup
      rw [uuidCol_map_loadRow]
      exact hnd
    · intro r hr hru
      rcases List.mem_map.mp hr with ⟨r0, _, rfl⟩
      exact absurd hru (by simp [loadRow])
  have hfin := runEntries_uuidInv fs w gen hinj walk (initState csv0 var0) st e h hinv
  exact ⟨List.Nodup.map hinj hfin.2.1, hfin.2.2.1⟩

/-- The uniqueness fact with the identity supply on a concrete
one-test input. -/
theorem identifier_uniqueness_witness :
    (((runMain [] "W" id [⟨[sampleFile "T1059" [sampleTest "bash" "echo hi"]]⟩] [] []).1.genIdxs.map id).Nodup) ∧
    (uuidCol (runMain [] "W" id [⟨[sampleFile "T1059" [sampleTest "bash" "echo hi"]]⟩] [] []).1.csvFile).Nodup :=
  identifier_uniqueness [] "W" id
    [⟨[sampleFile "T1059" [sampleTest "bash" "echo hi"]]⟩] [] []
    (runMain [] "W" id [⟨[sampleFile "T1059" [sampleTest "bash" "echo hi"]]⟩] [] []).1
    (runMain [] "W" id [⟨[sampleFile "T1059" [sampleTest "bash" "echo hi"]]⟩] [] []).2
    (fun a b hab => hab) (by decide) (by decide)
